import Mathlib

/-!
# Verification of the alx-polly voting subsystem

Shallow embedding of the voting core of the alx-polly repository:

* the database schema and the `update_poll_vote_counts` trigger from
  `database/supabase_setup.sql`;
* the service layer `voteService.vote`, `voteService.removeVote`,
  `voteService.getUserVote`, `pollService.createPoll`, `pollService.deletePoll`
  from `src/lib/supabase-services.ts` (re-exported by `src/lib/supabase-mock.ts`);
* the result-display helpers `getVotePercentage` and the "Leading" badge logic
  from `src/components/polls/poll-details.tsx`, and the `canVote` guard from
  `src/components/polls/poll-card.tsx`.

Opaque UUID strings are modelled as natural numbers drawn from a freshness
counter `nextId` (standing for `gen_random_uuid()`); SQL `INTEGER` columns are
modelled as `Int`.  Timestamp columns play no role in any claim and are omitted.
-/

namespace AlxPolly

/-- A row of the `polls` table (`database/supabase_setup.sql`). -/
structure Poll where
  id : Nat
  title : String
  description : Option String
  created_by : Nat
  is_active : Bool
  allow_multiple_choices : Bool
  total_votes : Int
  deriving Repr, DecidableEq

/-- A row of the `poll_options` table. -/
structure PollOption where
  id : Nat
  poll_id : Nat
  text : String
  votes : Int
  deriving Repr, DecidableEq

/-- A row of the `votes` table. -/
structure Vote where
  id : Nat
  poll_id : Nat
  option_id : Nat
  user_id : Nat
  deriving Repr, DecidableEq

/-- The visible database state: the three tables, plus the id-freshness
counter standing for `gen_random_uuid()`. -/
structure DBState where
  polls : List Poll
  options : List PollOption
  votes : List Vote
  nextId : Nat
  deriving Repr, DecidableEq

/-- Errors surfaced by the store on a vote insert and rethrown by the service
(`if (error) throw error`): the two foreign-key constraints of the `votes`
table and its `UNIQUE(poll_id, user_id, option_id)` constraint.  The unique
violation is the store-level event the spec calls `DuplicateVote`. -/
inductive VoteError where
  | pollNotFound
  | optionNotFound
  | duplicateVote
  deriving Repr, DecidableEq

instance : DecidableEq (Except VoteError Vote) := fun a b =>
  match a, b with
  | .ok v1, .ok v2 =>
    if h : v1 = v2 then .isTrue (by rw [h]) else .isFalse (by intro hc; cases hc; exact h rfl)
  | .error e1, .error e2 =>
    if h : e1 = e2 then .isTrue (by rw [h]) else .isFalse (by intro hc; cases hc; exact h rfl)
  | .ok _, .error _ => .isFalse (by intro hc; cases hc)
  | .error _, .ok _ => .isFalse (by intro hc; cases hc)

/-- The row-wise effect of `UPDATE poll_options SET votes = votes + d WHERE id = oid`. -/
def bumpOption (oid : Nat) (d : Int) (o : PollOption) : PollOption :=
  if o.id == oid then { o with votes := o.votes + d } else o

/-- The row-wise effect of `UPDATE polls SET total_votes = total_votes + d WHERE id = pid`. -/
def bumpPoll (pid : Nat) (d : Int) (p : Poll) : Poll :=
  if p.id == pid then { p with total_votes := p.total_votes + d } else p

/-- `UPDATE public.poll_options SET votes = votes + d WHERE id = oid`
(the trigger uses `d = 1` on insert, `d = -1` on delete). -/
def incOptionVotes (opts : List PollOption) (oid : Nat) (d : Int) : List PollOption :=
  opts.map (bumpOption oid d)

/-- `UPDATE public.polls SET total_votes = total_votes + d WHERE id = pid`. -/
def incPollTotal (polls : List Poll) (pid : Nat) (d : Int) : List Poll :=
  polls.map (bumpPoll pid d)

/-- The `TG_OP = 'INSERT'` branch of `update_poll_vote_counts`, fired after a
row `v` is inserted into `votes`. -/
def voteInsertTrigger (s : DBState) (v : Vote) : DBState :=
  { s with options := incOptionVotes s.options v.option_id 1
           polls := incPollTotal s.polls v.poll_id 1 }

/-- The `TG_OP = 'DELETE'` branch of `update_poll_vote_counts`, fired after a
row `v` is deleted from `votes`. -/
def voteDeleteTrigger (s : DBState) (v : Vote) : DBState :=
  { s with options := incOptionVotes s.options v.option_id (-1)
           polls := incPollTotal s.polls v.poll_id (-1) }

/-- `DELETE FROM votes WHERE pred`, firing the per-row delete trigger for each
removed row.  Deleting zero rows is not an error in Supabase, so no error is
produced. -/
def deleteVotesWhere (s : DBState) (pred : Vote → Bool) : DBState :=
  (s.votes.filter pred).foldl voteDeleteTrigger
    { s with votes := s.votes.filter fun v => !pred v }

/-- `INSERT INTO votes (poll_id, option_id, user_id) VALUES ...`: the store
checks the two foreign keys and the `UNIQUE(poll_id, user_id, option_id)`
constraint, then inserts a fresh row and fires the insert trigger.  On a
constraint violation nothing is mutated and the error is returned (the service
rethrows it). -/
def insertVote (s : DBState) (pollId optionId userId : Nat) :
    DBState × Except VoteError Vote :=
  if !(s.polls.any fun p => p.id == pollId) then (s, .error .pollNotFound)
  else if !(s.options.any fun o => o.id == optionId) then (s, .error .optionNotFound)
  else if s.votes.any fun v =>
      v.poll_id == pollId && v.user_id == userId && v.option_id == optionId then
    (s, .error .duplicateVote)
  else
    let v : Vote := { id := s.nextId, poll_id := pollId, option_id := optionId, user_id := userId }
    (voteInsertTrigger { s with votes := s.votes ++ [v], nextId := s.nextId + 1 } v, .ok v)

/-- `voteService.getUserVote`:
`SELECT * FROM votes WHERE poll_id = pollId AND user_id = userId`. -/
def getUserVote (s : DBState) (pollId userId : Nat) : List Vote :=
  s.votes.filter fun v => v.poll_id == pollId && v.user_id == userId

/-- The conditional retraction step of `voteService.vote`: fetch the voter's
existing votes for the poll, look up `allow_multiple_choices` (a missing poll
reads as `undefined`, which is falsy), and delete all of the voter's votes on
the poll when the poll is not multiple-choice and some exist
(`if (!poll?.allow_multiple_choices && existingVotes.length > 0)`). -/
def votePhase1 (s : DBState) (pollId userId : Nat) : DBState :=
  if !(((s.polls.find? fun p => p.id == pollId).map Poll.allow_multiple_choices).getD false) &&
      decide (0 < (getUserVote s pollId userId).length) then
    deleteVotesWhere s fun v => v.poll_id == pollId && v.user_id == userId
  else s

/-- `voteService.vote` (`src/lib/supabase-mock.ts:358-391`): the conditional
retraction of the voter's existing votes (`votePhase1`), then the insert of the
new vote.  The first component is the database state after the call returns or
throws: the code runs the statements sequentially with no transaction, so a
failing insert does not undo the delete. -/
def vote (s : DBState) (pollId optionId userId : Nat) :
    DBState × Except VoteError Vote :=
  insertVote (votePhase1 s pollId userId) pollId optionId userId

/-- `voteService.removeVote` (`src/lib/supabase-mock.ts:393-402`):
`DELETE FROM votes WHERE poll_id = pollId AND option_id = optionId AND
user_id = userId`.  The call only throws when the store reports an error, and
a delete matching zero rows is not an error, so the operation always
succeeds. -/
def removeVote (s : DBState) (pollId optionId userId : Nat) : DBState :=
  deleteVotesWhere s fun v =>
    v.poll_id == pollId && v.option_id == optionId && v.user_id == userId

/-- The option rows created by `pollService.createPoll` for the new poll:
one row per option text, `votes` defaulting to 0, ids drawn from the
freshness counter. -/
def mkOptions (pollId : Nat) : Nat → List String → List PollOption
  | _, [] => []
  | firstId, t :: ts =>
    { id := firstId, poll_id := pollId, text := t, votes := 0 } :: mkOptions pollId (firstId + 1) ts

/-- `pollService.createPoll`: insert the poll row (`is_active` defaulting to
`TRUE`, `total_votes` to 0), then insert one `poll_options` row per option
text.  Returns the new poll's id. -/
def createPoll (s : DBState) (title : String) (description : Option String)
    (userId : Nat) (allowMultipleChoices : Bool) (optionTexts : List String) :
    DBState × Nat :=
  let pollId := s.nextId
  let poll : Poll :=
    { id := pollId, title := title, description := description, created_by := userId
      is_active := true, allow_multiple_choices := allowMultipleChoices, total_votes := 0 }
  let opts := mkOptions pollId (pollId + 1) optionTexts
  ({ polls := s.polls ++ [poll], options := s.options ++ opts, votes := s.votes
     nextId := pollId + 1 + optionTexts.length }, pollId)

/-- `pollService.deletePoll`: `DELETE FROM polls WHERE id = pollId AND
created_by = userId`.  `ON DELETE CASCADE` removes the poll's options and every
vote referencing the poll or one of those options; each cascaded vote delete
fires the delete trigger (whose updates on rows that are themselves deleted in
the same statement have no visible effect). -/
def deletePoll (s : DBState) (pollId userId : Nat) : DBState :=
  if s.polls.any fun p => p.id == pollId && p.created_by == userId then
    let deletedOptionIds := (s.options.filter fun o => o.poll_id == pollId).map PollOption.id
    let removedVote := fun (v : Vote) =>
      v.poll_id == pollId || deletedOptionIds.contains v.option_id
    let s1 : DBState :=
      { polls := s.polls.filter fun p => !(p.id == pollId)
        options := s.options.filter fun o => !(o.poll_id == pollId)
        votes := s.votes.filter fun v => !removedVote v
        nextId := s.nextId }
    (s.votes.filter removedVote).foldl voteDeleteTrigger s1
  else s

/-- The number of live `votes` rows for a (poll, voter) pair. -/
def liveVoteCount (s : DBState) (pollId userId : Nat) : Nat :=
  (getUserVote s pollId userId).length

/-- The cached vote count of the option row with a given id (0 if absent). -/
def optionVotesL (opts : List PollOption) (oid : Nat) : Int :=
  ((opts.find? fun o => o.id == oid).map PollOption.votes).getD 0

/-- The cached vote count of an option in a database state. -/
def optionVotes (s : DBState) (oid : Nat) : Int :=
  optionVotesL s.options oid

/-- The cached total vote count of the poll row with a given id (0 if absent). -/
def pollTotalL (polls : List Poll) (pid : Nat) : Int :=
  ((polls.find? fun p => p.id == pid).map Poll.total_votes).getD 0

/-- The cached total vote count of a poll in a database state. -/
def pollTotal (s : DBState) (pid : Nat) : Int :=
  pollTotalL s.polls pid

/-- The sum of the cached option counts of a poll's options. -/
def optionSumL (opts : List PollOption) (pid : Nat) : Int :=
  ((opts.filter fun o => o.poll_id == pid).map PollOption.votes).sum

/-- The tally invariant of the spec: every poll's cached total equals the sum
of its options' cached counts. -/
def countsConsistent (s : DBState) : Prop :=
  ∀ p ∈ s.polls, p.total_votes = optionSumL s.options p.id

/-- Cross-entity referential integrity of the spec: every live vote references
an option row that belongs to the vote's poll. -/
def votesCoherent (s : DBState) : Prop :=
  ∀ v ∈ s.votes, ∃ o ∈ s.options, o.id = v.option_id ∧ o.poll_id = v.poll_id

/-- Repeated `voteService.vote` calls by one voter on one poll; `none` when
some call in the sequence fails. -/
def castVoteSeq (s : DBState) (pollId userId : Nat) : List Nat → Option DBState
  | [] => some s
  | oid :: rest =>
    match vote s pollId oid userId with
    | (s2, .ok _) => castVoteSeq s2 pollId userId rest
    | (_, .error _) => none

/-- The state-changing operations of the voting core (spec section 4.1). -/
inductive Op where
  | createPoll (title : String) (description : Option String) (userId : Nat)
      (allowMultipleChoices : Bool) (optionTexts : List String)
  | deletePoll (pollId userId : Nat)
  | castVote (pollId optionId userId : Nat)
  | retractVote (pollId optionId userId : Nat)
  deriving Repr, DecidableEq

/-- The database state after an operation runs to completion (a failed
`castVote` still commits the statements executed before the failing one). -/
def applyOp (s : DBState) : Op → DBState
  | .createPoll t d u m os => (createPoll s t d u m os).1
  | .deletePoll p u => deletePoll s p u
  | .castVote p o u => (vote s p o u).1
  | .retractVote p o u => removeVote s p o u

/-- The database state after a sequence of operations. -/
def applyOps (s : DBState) (ops : List Op) : DBState :=
  ops.foldl applyOp s

/-- A `castVote` argument pair respects option membership in state `s` when
any existing option carrying the requested id belongs to the requested poll.
All other operations are unconstrained. -/
def opOk (s : DBState) : Op → Prop
  | .castVote pid oid _ => ∀ o ∈ s.options, o.id = oid → o.poll_id = pid
  | _ => True

/-- Every operation of the sequence respects `opOk` in the state it runs in. -/
inductive OpsOk : DBState → List Op → Prop
  | nil (s : DBState) : OpsOk s []
  | cons {s : DBState} {op : Op} {ops : List Op} :
      opOk s op → OpsOk (applyOp s op) ops → OpsOk s (op :: ops)

/-- The empty database. -/
def initState : DBState :=
  { polls := [], options := [], votes := [], nextId := 0 }

/-- The structural well-formedness the store maintains: primary keys are
unique, cached counts agree with the live votes, votes reference options of
their own poll, and every stored id is older than the freshness counter. -/
structure Inv (s : DBState) : Prop where
  pollsNodup : (s.polls.map Poll.id).Nodup
  optsNodup : (s.options.map PollOption.id).Nodup
  counts : countsConsistent s
  coherent : votesCoherent s
  pollsFresh : ∀ p ∈ s.polls, p.id < s.nextId
  optsFresh : ∀ o ∈ s.options, o.id < s.nextId
  optsPollFresh : ∀ o ∈ s.options, o.poll_id < s.nextId

/-! ## The result-display layer

`src/components/polls/poll-details.tsx` renders results from the legacy
camel-case `Poll` shape (`poll.options`, `poll.totalVotes`); only the fields
the results card reads are modelled. -/

/-- An option as displayed by the results card. -/
structure PollOptionUI where
  id : Nat
  text : String
  votes : Nat
  deriving Repr, DecidableEq

/-- A poll as displayed by the results card. -/
structure PollUI where
  options : List PollOptionUI
  totalVotes : Nat
  deriving Repr, DecidableEq

/-- `getVotePercentage` (`poll-details.tsx:27-30`): 0 when `totalVotes` is 0,
otherwise `Math.round(option.votes / poll.totalVotes * 100)`; the rounding of
the non-negative ratio is computed exactly as
`⌊votes * 100 / total + 1 / 2⌋ = (200 * votes + total) / (2 * total)`. -/
def getVotePercentage (poll : PollUI) (o : PollOptionUI) : Nat :=
  if poll.totalVotes = 0 then 0
  else (200 * o.votes + poll.totalVotes) / (2 * poll.totalVotes)

/-- Stable insertion into a votes-descending list: the new element goes in
front of the first strictly-smaller entry, i.e. before later-listed ties, as
the stable `Array.prototype.sort` comparator `(a, b) => b.votes - a.votes`
places it. -/
def insertByVotes (o : PollOptionUI) : List PollOptionUI → List PollOptionUI
  | [] => [o]
  | x :: xs => if x.votes ≤ o.votes then o :: x :: xs else x :: insertByVotes o xs

/-- `poll.options.sort((a, b) => b.votes - a.votes)` (`poll-details.tsx:111`):
a stable votes-descending sort. -/
def sortByVotesDesc : List PollOptionUI → List PollOptionUI
  | [] => []
  | x :: xs => insertByVotes x (sortByVotesDesc xs)

/-- The option the results card decorates with the "Leading" badge
(`poll-details.tsx:112-125`): the option rendered at index 0 of the sorted
list, provided `isWinning` (`index === 0 && option.votes > 0`) and
`poll.totalVotes > 0`; `none` when no badge is shown. -/
def leadingOption (poll : PollUI) : Option PollOptionUI :=
  match sortByVotesDesc poll.options with
  | [] => none
  | x :: _ => if 0 < x.votes ∧ 0 < poll.totalVotes then some x else none

/-- `canVote` (`poll-card.tsx:39-41`): `poll.isActive && !hasVoted && onVote`,
with the vote handler's presence flattened to a boolean. -/
def canVote (isActive hasVoted hasVoteHandler : Bool) : Bool :=
  isActive && !hasVoted && hasVoteHandler

instance (s : DBState) : Decidable (countsConsistent s) :=
  inferInstanceAs (Decidable (∀ p ∈ s.polls, p.total_votes = optionSumL s.options p.id))

instance (s : DBState) : Decidable (votesCoherent s) :=
  inferInstanceAs
    (Decidable (∀ v ∈ s.votes, ∃ o ∈ s.options, o.id = v.option_id ∧ o.poll_id = v.poll_id))

instance (s : DBState) : (op : Op) → Decidable (opOk s op)
  | .castVote pid oid _ =>
    inferInstanceAs (Decidable (∀ o ∈ s.options, o.id = oid → o.poll_id = pid))
  | .createPoll _ _ _ _ _ => .isTrue trivial
  | .deletePoll _ _ => .isTrue trivial
  | .retractVote _ _ _ => .isTrue trivial

/-! ## Helper lemmas about the row updates of the tally trigger -/

@[simp] theorem bumpOption_id (oid : Nat) (d : Int) (o : PollOption) :
    (bumpOption oid d o).id = o.id := by
  unfold bumpOption; split <;> rfl

@[simp] theorem bumpOption_poll_id (oid : Nat) (d : Int) (o : PollOption) :
    (bumpOption oid d o).poll_id = o.poll_id := by
  unfold bumpOption; split <;> rfl

theorem bumpOption_votes (oid : Nat) (d : Int) (o : PollOption) :
    (bumpOption oid d o).votes = if o.id = oid then o.votes + d else o.votes := by
  unfold bumpOption
  by_cases h : o.id = oid <;> simp [h]

@[simp] theorem bumpPoll_id (pid : Nat) (d : Int) (p : Poll) :
    (bumpPoll pid d p).id = p.id := by
  unfold bumpPoll; split <;> rfl

@[simp] theorem bumpPoll_allow (pid : Nat) (d : Int) (p : Poll) :
    (bumpPoll pid d p).allow_multiple_choices = p.allow_multiple_choices := by
  unfold bumpPoll; split <;> rfl

theorem bumpPoll_total (pid : Nat) (d : Int) (p : Poll) :
    (bumpPoll pid d p).total_votes =
      if p.id = pid then p.total_votes + d else p.total_votes := by
  unfold bumpPoll
  by_cases h : p.id = pid <;> simp [h]

theorem incOptionVotes_map_id (opts : List PollOption) (oid : Nat) (d : Int) :
    (incOptionVotes opts oid d).map PollOption.id = opts.map PollOption.id := by
  unfold incOptionVotes
  rw [List.map_map]
  exact List.map_congr_left fun o _ => bumpOption_id oid d o

theorem incOptionVotes_map_pair (opts : List PollOption) (oid : Nat) (d : Int) :
    (incOptionVotes opts oid d).map (fun o => (o.id, o.poll_id)) =
      opts.map (fun o => (o.id, o.poll_id)) := by
  unfold incOptionVotes
  rw [List.map_map]
  refine List.map_congr_left fun o _ => ?_
  simp [Function.comp]

theorem incPollTotal_map_id (polls : List Poll) (pid : Nat) (d : Int) :
    (incPollTotal polls pid d).map Poll.id = polls.map Poll.id := by
  unfold incPollTotal
  rw [List.map_map]
  exact List.map_congr_left fun p _ => bumpPoll_id pid d p

theorem find?_incOptionVotes (opts : List PollOption) (oid x : Nat) (d : Int) :
    (incOptionVotes opts oid d).find? (fun o => o.id == x) =
      (opts.find? (fun o => o.id == x)).map (bumpOption oid d) := by
  have hp : ((fun o : PollOption => o.id == x) ∘ bumpOption oid d) =
      fun o : PollOption => o.id == x := by
    funext o; simp [Function.comp]
  rw [incOptionVotes, List.find?_map, hp]

theorem find?_incPollTotal (polls : List Poll) (pid x : Nat) (d : Int) :
    (incPollTotal polls pid d).find? (fun p => p.id == x) =
      (polls.find? (fun p => p.id == x)).map (bumpPoll pid d) := by
  have hp : ((fun p : Poll => p.id == x) ∘ bumpPoll pid d) =
      fun p : Poll => p.id == x := by
    funext p; simp [Function.comp]
  rw [incPollTotal, List.find?_map, hp]

theorem optionVotesL_inc_ne (opts : List PollOption) (oid x : Nat) (d : Int)
    (h : x ≠ oid) :
    optionVotesL (incOptionVotes opts oid d) x = optionVotesL opts x := by
  unfold optionVotesL
  rw [find?_incOptionVotes]
  cases hf : opts.find? fun o => o.id == x with
  | none => rfl
  | some o =>
    have hox : o.id = x := by simpa using List.find?_some hf
    simp [bumpOption_votes, hox, h]

theorem optionVotesL_inc_self (opts : List PollOption) (oid : Nat) (d : Int)
    (h : (opts.find? fun o => o.id == oid).isSome) :
    optionVotesL (incOptionVotes opts oid d) oid = optionVotesL opts oid + d := by
  unfold optionVotesL
  rw [find?_incOptionVotes]
  obtain ⟨o, ho⟩ := Option.isSome_iff_exists.mp h
  have hox : o.id = oid := by simpa using List.find?_some ho
  rw [ho]
  simp [bumpOption_votes, hox]

theorem pollTotalL_inc_ne (polls : List Poll) (pid x : Nat) (d : Int) (h : x ≠ pid) :
    pollTotalL (incPollTotal polls pid d) x = pollTotalL polls x := by
  unfold pollTotalL
  rw [find?_incPollTotal]
  cases hf : polls.find? fun p => p.id == x with
  | none => rfl
  | some p =>
    have hpx : p.id = x := by simpa using List.find?_some hf
    simp [bumpPoll_total, hpx, h]

theorem pollTotalL_inc_self (polls : List Poll) (pid : Nat) (d : Int)
    (h : (polls.find? fun p => p.id == pid).isSome) :
    pollTotalL (incPollTotal polls pid d) pid = pollTotalL polls pid + d := by
  unfold pollTotalL
  rw [find?_incPollTotal]
  obtain ⟨p, hp⟩ := Option.isSome_iff_exists.mp h
  have hpx : p.id = pid := by simpa using List.find?_some hp
  rw [hp]
  simp [bumpPoll_total, hpx]

theorem bumpOption_cancel (oid : Nat) (o : PollOption) :
    bumpOption oid 1 (bumpOption oid (-1) o) = o := by
  unfold bumpOption
  by_cases h : o.id = oid
  · cases o
    simp_all
  · simp [h]

theorem bumpPoll_cancel (pid : Nat) (p : Poll) :
    bumpPoll pid 1 (bumpPoll pid (-1) p) = p := by
  unfold bumpPoll
  by_cases h : p.id = pid
  · cases p
    simp_all
  · simp [h]

theorem incOptionVotes_cancel (opts : List PollOption) (oid : Nat) :
    incOptionVotes (incOptionVotes opts oid (-1)) oid 1 = opts := by
  unfold incOptionVotes
  rw [List.map_map]
  have : ∀ o ∈ opts, (bumpOption oid 1 ∘ bumpOption oid (-1)) o = id o := by
    intro o _
    exact bumpOption_cancel oid o
  rw [List.map_congr_left this, List.map_id]

theorem incPollTotal_cancel (polls : List Poll) (pid : Nat) :
    incPollTotal (incPollTotal polls pid (-1)) pid 1 = polls := by
  unfold incPollTotal
  rw [List.map_map]
  have : ∀ p ∈ polls, (bumpPoll pid 1 ∘ bumpPoll pid (-1)) p = id p := by
    intro p _
    exact bumpPoll_cancel pid p
  rw [List.map_congr_left this, List.map_id]

theorem foldDelete_spec (vs : List Vote) : ∀ s : DBState,
    vs.foldl voteDeleteTrigger s =
      { polls := vs.foldl (fun ps v => incPollTotal ps v.poll_id (-1)) s.polls
        options := vs.foldl (fun os v => incOptionVotes os v.option_id (-1)) s.options
        votes := s.votes, nextId := s.nextId } := by
  induction vs with
  | nil => intro s; rfl
  | cons v vs ih =>
    intro s
    simp only [List.foldl_cons]
    rw [ih]
    rfl

theorem deleteVotesWhere_spec (s : DBState) (pred : Vote → Bool) :
    deleteVotesWhere s pred =
      { polls := (s.votes.filter pred).foldl
          (fun ps v => incPollTotal ps v.poll_id (-1)) s.polls
        options := (s.votes.filter pred).foldl
          (fun os v => incOptionVotes os v.option_id (-1)) s.options
        votes := s.votes.filter (fun v => !pred v), nextId := s.nextId } := by
  unfold deleteVotesWhere
  rw [foldDelete_spec]

theorem foldIncPoll_map_id (vs : List Vote) : ∀ polls : List Poll,
    (vs.foldl (fun ps v => incPollTotal ps v.poll_id (-1)) polls).map Poll.id =
      polls.map Poll.id := by
  induction vs with
  | nil => intro polls; rfl
  | cons v vs ih =>
    intro polls
    simp only [List.foldl_cons]
    rw [ih, incPollTotal_map_id]

theorem foldIncOpt_map_id (vs : List Vote) : ∀ opts : List PollOption,
    (vs.foldl (fun os v => incOptionVotes os v.option_id (-1)) opts).map PollOption.id =
      opts.map PollOption.id := by
  induction vs with
  | nil => intro opts; rfl
  | cons v vs ih =>
    intro opts
    simp only [List.foldl_cons]
    rw [ih, incOptionVotes_map_id]

theorem foldIncOpt_map_pair (vs : List Vote) : ∀ opts : List PollOption,
    (vs.foldl (fun os v => incOptionVotes os v.option_id (-1)) opts).map
        (fun o => (o.id, o.poll_id)) =
      opts.map (fun o => (o.id, o.poll_id)) := by
  induction vs with
  | nil => intro opts; rfl
  | cons v vs ih =>
    intro opts
    simp only [List.foldl_cons]
    rw [ih, incOptionVotes_map_pair]

theorem exists_id_poll_iff_mem_pair (opts : List PollOption) (a b : Nat) :
    (∃ o ∈ opts, o.id = a ∧ o.poll_id = b) ↔
      (a, b) ∈ opts.map (fun o => (o.id, o.poll_id)) := by
  simp only [List.mem_map, Prod.mk.injEq]

theorem anyOptId_iff (opts : List PollOption) (x : Nat) :
    (opts.any fun o => o.id == x) = true ↔ x ∈ opts.map PollOption.id := by
  simp only [List.any_eq_true, List.mem_map, beq_iff_eq]

theorem anyPollId_iff (polls : List Poll) (x : Nat) :
    (polls.any fun p => p.id == x) = true ↔ x ∈ polls.map Poll.id := by
  simp only [List.any_eq_true, List.mem_map, beq_iff_eq]

/-! ## Helper lemmas about cached-count arithmetic -/

set_option linter.unusedTactic false in
theorem optionSumL_inc (opts : List PollOption) (oid x : Nat) (d : Int) :
    optionSumL (incOptionVotes opts oid d) x =
      optionSumL opts x +
        d * ((opts.filter fun o => o.id == oid && o.poll_id == x).length : Int) := by
  induction opts with
  | nil => simp [optionSumL, incOptionVotes]
  | cons o rest ih =>
    unfold optionSumL incOptionVotes at ih ⊢
    simp only [List.map_cons, List.filter_cons, bumpOption_poll_id]
    by_cases hpx : o.poll_id = x <;> by_cases hio : o.id = oid <;>
      simp [hpx, hio, bumpOption_votes, ih] <;> push_cast <;> ring

theorem filter_idPoll_length (opts : List PollOption) (oid x : Nat)
    (hnd : (opts.map PollOption.id).Nodup) (o : PollOption)
    (ho : o ∈ opts) (hid : o.id = oid) :
    (opts.filter fun u => u.id == oid && u.poll_id == x).length =
      if o.poll_id = x then 1 else 0 := by
  induction opts with
  | nil => cases ho
  | cons a rest ih =>
    simp only [List.map_cons, List.nodup_cons, List.mem_map] at hnd
    obtain ⟨hna, hndr⟩ := hnd
    rcases List.mem_cons.mp ho with rfl | ho2
    · have hrest : (rest.filter fun u => u.id == oid && u.poll_id == x) = [] := by
        rw [List.filter_eq_nil_iff]
        intro u hu
        have : u.id ≠ o.id := fun h => hna ⟨u, hu, h⟩
        simp [hid ▸ this]
      simp only [List.filter_cons, hid, beq_self_eq_true, Bool.true_and]
      by_cases hpx : o.poll_id = x
      · simp [hpx, hrest]
      · simp [hpx, hrest]
    · have hne : a.id ≠ oid := by
        intro h
        exact hna ⟨o, ho2, (hid.trans h.symm)⟩
      have : (a.id == oid) = false := by simp [hne]
      simp only [List.filter_cons, this, Bool.false_and, Bool.false_eq_true, if_neg, if_false]
      exact ih hndr ho2

theorem counts_bump (polls : List Poll) (opts : List PollOption) (oid pid : Nat) (d : Int)
    (hc : ∀ p ∈ polls, p.total_votes = optionSumL opts p.id)
    (hcnt : ∀ p ∈ polls,
      ((opts.filter fun o => o.id == oid && o.poll_id == p.id).length : Int) =
        if p.id = pid then 1 else 0) :
    ∀ p ∈ incPollTotal polls pid d, p.total_votes = optionSumL (incOptionVotes opts oid d) p.id := by
  intro p2 hp2
  rw [incPollTotal] at hp2
  obtain ⟨p, hp, rfl⟩ := List.mem_map.mp hp2
  rw [bumpPoll_id, optionSumL_inc, bumpPoll_total, ← hc p hp, hcnt p hp]
  by_cases h : p.id = pid
  · simp [h]
  · simp [h]

theorem of_mem_incOptionVotes {opts : List PollOption} {a : Nat} {d : Int} {o2 : PollOption}
    (h : o2 ∈ incOptionVotes opts a d) :
    ∃ o ∈ opts, o2.id = o.id ∧ o2.poll_id = o.poll_id := by
  rw [incOptionVotes] at h
  obtain ⟨o, ho, rfl⟩ := List.mem_map.mp h
  exact ⟨o, ho, bumpOption_id a d o, bumpOption_poll_id a d o⟩

theorem of_mem_incPollTotal {polls : List Poll} {a : Nat} {d : Int} {p2 : Poll}
    (h : p2 ∈ incPollTotal polls a d) :
    ∃ p ∈ polls, p2.id = p.id := by
  rw [incPollTotal] at h
  obtain ⟨p, hp, rfl⟩ := List.mem_map.mp h
  exact ⟨p, hp, bumpPoll_id a d p⟩

theorem anyPollId_congr {l1 l2 : List Poll} (h : l1.map Poll.id = l2.map Poll.id) (x : Nat) :
    (l1.any fun p => p.id == x) = (l2.any fun p => p.id == x) := by
  apply Bool.eq_iff_iff.mpr
  rw [anyPollId_iff, anyPollId_iff, h]

theorem anyOptId_congr {l1 l2 : List PollOption}
    (h : l1.map PollOption.id = l2.map PollOption.id) (x : Nat) :
    (l1.any fun o => o.id == x) = (l2.any fun o => o.id == x) := by
  apply Bool.eq_iff_iff.mpr
  rw [anyOptId_iff, anyOptId_iff, h]

/-! ## Preservation of the well-formedness invariant -/

theorem inv_deleteTrigger_present (s : DBState) (v : Vote) (hInv : Inv s)
    (hvo : ∃ o ∈ s.options, o.id = v.option_id ∧ o.poll_id = v.poll_id) :
    Inv (voteDeleteTrigger s v) := by
  obtain ⟨o, ho, hoid, hop⟩ := hvo
  constructor
  · show (incPollTotal s.polls v.poll_id (-1)).map Poll.id |>.Nodup
    rw [incPollTotal_map_id]; exact hInv.pollsNodup
  · show (incOptionVotes s.options v.option_id (-1)).map PollOption.id |>.Nodup
    rw [incOptionVotes_map_id]; exact hInv.optsNodup
  · intro p hp
    refine counts_bump s.polls s.options v.option_id v.poll_id (-1) hInv.counts ?_ p hp
    intro q hq
    rw [filter_idPoll_length s.options v.option_id q.id hInv.optsNodup o ho hoid, hop]
    by_cases h : q.id = v.poll_id
    · simp [h]
    · have h2 : ¬v.poll_id = q.id := fun hh => h hh.symm
      simp [h, h2]
  · intro w hw
    have hc := hInv.coherent w hw
    rw [exists_id_poll_iff_mem_pair] at hc ⊢
    show (w.option_id, w.poll_id) ∈
      (incOptionVotes s.options v.option_id (-1)).map fun o => (o.id, o.poll_id)
    rw [incOptionVotes_map_pair]
    exact hc
  · intro p hp
    obtain ⟨q, hq, hid⟩ := of_mem_incPollTotal hp
    exact hid ▸ hInv.pollsFresh q hq
  · intro o2 ho2
    obtain ⟨q, hq, hid, _⟩ := of_mem_incOptionVotes ho2
    exact hid ▸ hInv.optsFresh q hq
  · intro o2 ho2
    obtain ⟨q, hq, _, hpid⟩ := of_mem_incOptionVotes ho2
    exact hpid ▸ hInv.optsPollFresh q hq

theorem inv_deleteTrigger_absent (s : DBState) (v : Vote) (hInv : Inv s)
    (hoAbs : ∀ o ∈ s.options, o.id ≠ v.option_id)
    (hpAbs : ∀ p ∈ s.polls, p.id ≠ v.poll_id) :
    Inv (voteDeleteTrigger s v) := by
  constructor
  · show (incPollTotal s.polls v.poll_id (-1)).map Poll.id |>.Nodup
    rw [incPollTotal_map_id]; exact hInv.pollsNodup
  · show (incOptionVotes s.options v.option_id (-1)).map PollOption.id |>.Nodup
    rw [incOptionVotes_map_id]; exact hInv.optsNodup
  · intro p hp
    refine counts_bump s.polls s.options v.option_id v.poll_id (-1) hInv.counts ?_ p hp
    intro q hq
    have hnil : (s.options.filter fun u => u.id == v.option_id && u.poll_id == q.id) = [] := by
      rw [List.filter_eq_nil_iff]
      intro u hu
      simp [hoAbs u hu]
    rw [hnil]
    simp [hpAbs q hq]
  · intro w hw
    have hc := hInv.coherent w hw
    rw [exists_id_poll_iff_mem_pair] at hc ⊢
    show (w.option_id, w.poll_id) ∈
      (incOptionVotes s.options v.option_id (-1)).map fun o => (o.id, o.poll_id)
    rw [incOptionVotes_map_pair]
    exact hc
  · intro p hp
    obtain ⟨q, hq, hid⟩ := of_mem_incPollTotal hp
    exact hid ▸ hInv.pollsFresh q hq
  · intro o2 ho2
    obtain ⟨q, hq, hid, _⟩ := of_mem_incOptionVotes ho2
    exact hid ▸ hInv.optsFresh q hq
  · intro o2 ho2
    obtain ⟨q, hq, _, hpid⟩ := of_mem_incOptionVotes ho2
    exact hpid ▸ hInv.optsPollFresh q hq

theorem inv_foldDelete (vs : List Vote) : ∀ s : DBState, Inv s →
    (∀ v ∈ vs, ∃ o ∈ s.options, o.id = v.option_id ∧ o.poll_id = v.poll_id) →
    Inv (vs.foldl voteDeleteTrigger s) := by
  induction vs with
  | nil => intro s h _; exact h
  | cons v vs ih =>
    intro s hInv hco
    simp only [List.foldl_cons]
    refine ih _ (inv_deleteTrigger_present s v hInv (hco v (List.mem_cons_self v vs))) ?_
    intro w hw
    have hc := hco w (List.mem_cons_of_mem v hw)
    rw [exists_id_poll_iff_mem_pair] at hc ⊢
    show (w.option_id, w.poll_id) ∈
      (incOptionVotes s.options v.option_id (-1)).map fun o => (o.id, o.poll_id)
    rw [incOptionVotes_map_pair]
    exact hc

theorem inv_foldDelete_absent (vs : List Vote) : ∀ s : DBState, Inv s →
    (∀ v ∈ vs, ∀ o ∈ s.options, o.id ≠ v.option_id) →
    (∀ v ∈ vs, ∀ p ∈ s.polls, p.id ≠ v.poll_id) →
    Inv (vs.foldl voteDeleteTrigger s) := by
  induction vs with
  | nil => intro s h _ _; exact h
  | cons v vs ih =>
    intro s hInv hoAbs hpAbs
    simp only [List.foldl_cons]
    refine ih _ (inv_deleteTrigger_absent s v hInv
      (hoAbs v (List.mem_cons_self v vs)) (hpAbs v (List.mem_cons_self v vs))) ?_ ?_
    · intro w hw o2 ho2
      obtain ⟨q, hq, hid, _⟩ := of_mem_incOptionVotes ho2
      rw [hid]
      exact hoAbs w (List.mem_cons_of_mem v hw) q hq
    · intro w hw p2 hp2
      obtain ⟨q, hq, hid⟩ := of_mem_incPollTotal hp2
      rw [hid]
      exact hpAbs w (List.mem_cons_of_mem v hw) q hq

theorem inv_deleteVotesWhere (s : DBState) (pred : Vote → Bool) (hInv : Inv s) :
    Inv (deleteVotesWhere s pred) := by
  unfold deleteVotesWhere
  have hInv0 : Inv { s with votes := s.votes.filter fun v => !pred v } := by
    constructor
    · exact hInv.pollsNodup
    · exact hInv.optsNodup
    · exact hInv.counts
    · intro v hv
      exact hInv.coherent v (List.mem_filter.mp hv).1
    · exact hInv.pollsFresh
    · exact hInv.optsFresh
    · exact hInv.optsPollFresh
  refine inv_foldDelete _ _ hInv0 ?_
  intro v hv
  exact hInv.coherent v (List.mem_filter.mp hv).1

theorem of_mem_deleteVotesWhere_options {s : DBState} {pred : Vote → Bool} {o2 : PollOption}
    (h : o2 ∈ (deleteVotesWhere s pred).options) :
    ∃ o ∈ s.options, o2.id = o.id ∧ o2.poll_id = o.poll_id := by
  rw [deleteVotesWhere_spec] at h
  have hmem : (o2.id, o2.poll_id) ∈ s.options.map fun o => (o.id, o.poll_id) := by
    rw [← foldIncOpt_map_pair (s.votes.filter pred) s.options]
    exact List.mem_map_of_mem _ h
  rw [← exists_id_poll_iff_mem_pair] at hmem
  obtain ⟨o, ho, h1, h2⟩ := hmem
  exact ⟨o, ho, h1.symm, h2.symm⟩

theorem inv_insertVote (s : DBState) (pid oid uid : Nat) (hInv : Inv s)
    (hOk : ∀ o ∈ s.options, o.id = oid → o.poll_id = pid) :
    Inv (insertVote s pid oid uid).1 := by
  unfold insertVote
  cases h1 : (s.polls.any fun p => p.id == pid) with
  | false => simpa [h1] using hInv
  | true =>
    cases h2 : (s.options.any fun o => o.id == oid) with
    | false => simpa [h1, h2] using hInv
    | true =>
      cases h3 : (s.votes.any fun v =>
          v.poll_id == pid && v.user_id == uid && v.option_id == oid) with
      | true => simpa [h1, h2, h3] using hInv
      | false =>
        simp only [h1, h2, h3, Bool.not_true, Bool.false_eq_true, if_false, if_true,
          Bool.not_false]
        obtain ⟨o, ho, hid⟩ : ∃ o ∈ s.options, o.id = oid := by
          have := (List.any_eq_true).mp h2
          simpa using this
        have hopid : o.poll_id = pid := hOk o ho hid
        constructor
        · show (incPollTotal s.polls pid 1).map Poll.id |>.Nodup
          rw [incPollTotal_map_id]; exact hInv.pollsNodup
        · show (incOptionVotes s.options oid 1).map PollOption.id |>.Nodup
          rw [incOptionVotes_map_id]; exact hInv.optsNodup
        · intro p hp
          refine counts_bump s.polls s.options oid pid 1 hInv.counts ?_ p hp
          intro q hq
          rw [filter_idPoll_length s.options oid q.id hInv.optsNodup o ho hid, hopid]
          by_cases h : q.id = pid
          · simp [h]
          · have h2b : ¬pid = q.id := fun hh => h hh.symm
            simp [h, h2b]
        · intro w hw
          rw [exists_id_poll_iff_mem_pair]
          show (w.option_id, w.poll_id) ∈
            (incOptionVotes s.options oid 1).map fun u => (u.id, u.poll_id)
          rw [incOptionVotes_map_pair, ← exists_id_poll_iff_mem_pair]
          rcases List.mem_append.mp hw with hw1 | hw2
          · exact hInv.coherent w hw1
          · have : w = { id := s.nextId, poll_id := pid, option_id := oid, user_id := uid } := by
              simpa using hw2
            subst this
            exact ⟨o, ho, hid, hopid⟩
        · intro p hp
          obtain ⟨q, hq, hpq⟩ := of_mem_incPollTotal hp
          have := hInv.pollsFresh q hq
          simp only [voteInsertTrigger]
          omega
        · intro o2 ho2
          obtain ⟨q, hq, hoq, _⟩ := of_mem_incOptionVotes ho2
          have := hInv.optsFresh q hq
          simp only [voteInsertTrigger]
          omega
        · intro o2 ho2
          obtain ⟨q, hq, _, hoq⟩ := of_mem_incOptionVotes ho2
          have := hInv.optsPollFresh q hq
          simp only [voteInsertTrigger]
          omega

theorem inv_votePhase1 (s : DBState) (pid uid : Nat) (hInv : Inv s) :
    Inv (votePhase1 s pid uid) := by
  unfold votePhase1
  split
  · exact inv_deleteVotesWhere s _ hInv
  · exact hInv

theorem votePhase1_opts_transport (s : DBState) (pid uid : Nat) {o2 : PollOption}
    (ho2 : o2 ∈ (votePhase1 s pid uid).options) :
    ∃ o ∈ s.options, o2.id = o.id ∧ o2.poll_id = o.poll_id := by
  unfold votePhase1 at ho2
  split at ho2
  · exact of_mem_deleteVotesWhere_options ho2
  · exact ⟨o2, ho2, rfl, rfl⟩

theorem inv_vote (s : DBState) (pid oid uid : Nat) (hInv : Inv s)
    (hOk : ∀ o ∈ s.options, o.id = oid → o.poll_id = pid) :
    Inv (vote s pid oid uid).1 := by
  unfold vote
  refine inv_insertVote _ pid oid uid (inv_votePhase1 s pid uid hInv) ?_
  intro o2 ho2 hid
  obtain ⟨o, ho, h1, h2⟩ := votePhase1_opts_transport s pid uid ho2
  rw [h2]
  exact hOk o ho (h1 ▸ hid)

theorem mkOptions_mem {pid : Nat} {o : PollOption} :
    ∀ {fid : Nat} {ts : List String}, o ∈ mkOptions pid fid ts →
      o.poll_id = pid ∧ o.votes = 0 ∧ fid ≤ o.id ∧ o.id < fid + ts.length := by
  intro fid ts
  induction ts generalizing fid with
  | nil => intro h; cases h
  | cons t ts ih =>
    intro h
    rcases List.mem_cons.mp h with rfl | h2
    · refine ⟨rfl, rfl, Nat.le_refl _, ?_⟩
      simp only [List.length_cons]
      omega
    · obtain ⟨h1, h2, h3, h4⟩ := ih h2
      refine ⟨h1, h2, by omega, ?_⟩
      simp only [List.length_cons]
      omega

theorem mkOptions_map_id_nodup (pid : Nat) :
    ∀ (fid : Nat) (ts : List String), ((mkOptions pid fid ts).map PollOption.id).Nodup := by
  intro fid ts
  induction ts generalizing fid with
  | nil => simp [mkOptions]
  | cons t ts ih =>
    simp only [mkOptions, List.map_cons, List.nodup_cons, List.mem_map]
    refine ⟨?_, ih (fid + 1)⟩
    rintro ⟨o, ho, hid⟩
    have := (mkOptions_mem ho).2.2.1
    omega

theorem inv_createPoll (s : DBState) (title : String) (description : Option String)
    (uid : Nat) (allow : Bool) (texts : List String) (hInv : Inv s) :
    Inv (createPoll s title description uid allow texts).1 := by
  unfold createPoll
  constructor
  · show ((s.polls ++ [_]).map Poll.id).Nodup
    rw [List.map_append, List.nodup_append]
    refine ⟨hInv.pollsNodup, by simp, ?_⟩
    intro a ha hb
    obtain ⟨p, hp, rfl⟩ := List.mem_map.mp ha
    have := hInv.pollsFresh p hp
    simp only [List.map_cons, List.map_nil, List.mem_singleton] at hb
    omega
  · show ((s.options ++ mkOptions s.nextId (s.nextId + 1) texts).map PollOption.id).Nodup
    rw [List.map_append, List.nodup_append]
    refine ⟨hInv.optsNodup, mkOptions_map_id_nodup _ _ _, ?_⟩
    intro a ha hb
    obtain ⟨o, ho, rfl⟩ := List.mem_map.mp ha
    obtain ⟨o2, ho2, heq⟩ := List.mem_map.mp hb
    have h1 := hInv.optsFresh o ho
    have h2 := (mkOptions_mem ho2).2.2.1
    omega
  · intro p hp
    rcases List.mem_append.mp hp with hp1 | hp2
    · show p.total_votes =
        optionSumL (s.options ++ mkOptions s.nextId (s.nextId + 1) texts) p.id
      unfold optionSumL
      rw [List.filter_append, List.map_append, List.sum_append]
      have hfresh := hInv.pollsFresh p hp1
      have hnil : ((mkOptions s.nextId (s.nextId + 1) texts).filter
          fun o => o.poll_id == p.id) = [] := by
        rw [List.filter_eq_nil_iff]
        intro o ho
        have := (mkOptions_mem ho).1
        simp only [beq_iff_eq, this]
        omega
      rw [hnil]
      simpa using hInv.counts p hp1
    · have hp3 : p = Poll.mk s.nextId title description uid true allow 0 := by
        simpa using hp2
      subst hp3
      show (0 : Int) =
        optionSumL (s.options ++ mkOptions s.nextId (s.nextId + 1) texts) s.nextId
      unfold optionSumL
      rw [List.filter_append, List.map_append, List.sum_append]
      have hnil : (s.options.filter fun o => o.poll_id == s.nextId) = [] := by
        rw [List.filter_eq_nil_iff]
        intro o ho
        have := hInv.optsPollFresh o ho
        simp only [beq_iff_eq]
        omega
      rw [hnil]
      have hz : (((mkOptions s.nextId (s.nextId + 1) texts).filter
          fun o => o.poll_id == s.nextId).map PollOption.votes).sum = 0 := by
        apply List.sum_eq_zero
        intro x hx
        obtain ⟨o, ho, rfl⟩ := List.mem_map.mp hx
        exact (mkOptions_mem (List.mem_filter.mp ho).1).2.1
      rw [hz]
      simp
  · intro v hv
    obtain ⟨o, ho, h1, h2⟩ := hInv.coherent v hv
    exact ⟨o, List.mem_append_left _ ho, h1, h2⟩
  · intro p hp
    rcases List.mem_append.mp hp with hp1 | hp2
    · have := hInv.pollsFresh p hp1
      simp only []
      omega
    · have hp3 : p.id = s.nextId := by
        have hpe : p = Poll.mk s.nextId title description uid true allow 0 := by
          simpa using hp2
        rw [hpe]
      simp only [hp3]
      omega
  · intro o ho
    rcases List.mem_append.mp ho with ho1 | ho2
    · have := hInv.optsFresh o ho1
      simp only []
      omega
    · have := (mkOptions_mem ho2).2.2.2
      simp only [] at this ⊢
      omega
  · intro o ho
    rcases List.mem_append.mp ho with ho1 | ho2
    · have := hInv.optsPollFresh o ho1
      simp only []
      omega
    · have := (mkOptions_mem ho2).1
      rw [this]
      simp only []
      omega

theorem inv_deletePoll (s : DBState) (pid uid : Nat) (hInv : Inv s) :
    Inv (deletePoll s pid uid) := by
  unfold deletePoll
  split
  case isFalse => exact hInv
  case isTrue hcond =>
    simp only []
    have hinj := List.inj_on_of_nodup_map hInv.optsNodup
    have fact1 : ∀ v ∈ s.votes,
        (v.poll_id == pid ||
          ((s.options.filter fun o => o.poll_id == pid).map PollOption.id).contains
            v.option_id) = true →
        v.poll_id = pid ∧ ∀ o ∈ s.options, o.id = v.option_id → o.poll_id = pid := by
      intro v hv hrem
      obtain ⟨o0, ho0, hid0, hpid0⟩ := hInv.coherent v hv
      have hvp : v.poll_id = pid := by
        rcases Bool.or_eq_true_iff.mp hrem with h1 | h2
        · exact beq_iff_eq.mp h1
        · have : v.option_id ∈ (s.options.filter fun o => o.poll_id == pid).map
              PollOption.id := by simpa using h2
          obtain ⟨odel, hodel, hodelid⟩ := List.mem_map.mp this
          have hodmem := (List.mem_filter.mp hodel).1
          have hodpid : odel.poll_id = pid := beq_iff_eq.mp (List.mem_filter.mp hodel).2
          have : o0 = odel := hinj ho0 hodmem (hid0.trans hodelid.symm)
          rw [← hpid0, this, hodpid]
      refine ⟨hvp, ?_⟩
      intro o ho hido
      have : o = o0 := hinj ho ho0 (hido.trans hid0.symm)
      rw [this, hpid0, hvp]
    have hInv1 : Inv
        { polls := s.polls.filter fun p => !(p.id == pid),
          options := s.options.filter fun o => !(o.poll_id == pid),
          votes := s.votes.filter fun v => !(v.poll_id == pid ||
            ((s.options.filter fun o => o.poll_id == pid).map PollOption.id).contains v.option_id),
          nextId := s.nextId } := by
      constructor
      · exact ((List.filter_sublist s.polls).map Poll.id).nodup hInv.pollsNodup
      · exact ((List.filter_sublist s.options).map PollOption.id).nodup hInv.optsNodup
      · intro p hp
        have hpmem := (List.mem_filter.mp hp).1
        have hpne : p.id ≠ pid := by
          have := (List.mem_filter.mp hp).2
          simpa using this
        show p.total_votes = optionSumL (s.options.filter fun o => !(o.poll_id == pid)) p.id
        rw [hInv.counts p hpmem]
        unfold optionSumL
        rw [List.filter_filter]
        congr 1
        congr 1
        apply List.filter_congr
        intro o ho
        by_cases h : o.poll_id = p.id
        · have : o.poll_id ≠ pid := by rw [h]; exact hpne
          simp [h, this, hpne]
        · simp [h]
      · intro w hw
        have hwmem := (List.mem_filter.mp hw).1
        have hwkeep := (List.mem_filter.mp hw).2
        have hnp : w.poll_id ≠ pid := by
          intro hc
          simp [hc] at hwkeep
        obtain ⟨o0, ho0, hid0, hpid0⟩ := hInv.coherent w hwmem
        refine ⟨o0, List.mem_filter.mpr ⟨ho0, ?_⟩, hid0, hpid0⟩
        simp only [Bool.not_eq_true', beq_eq_false_iff_ne, ne_eq]
        rw [hpid0]
        exact hnp
      · intro p hp
        exact hInv.pollsFresh p (List.mem_filter.mp hp).1
      · intro o ho
        exact hInv.optsFresh o (List.mem_filter.mp ho).1
      · intro o ho
        exact hInv.optsPollFresh o (List.mem_filter.mp ho).1
    refine inv_foldDelete_absent _ _ hInv1 ?_ ?_
    · intro v hv o2 ho2
      have hvfacts := fact1 v (List.mem_filter.mp hv).1 (List.mem_filter.mp hv).2
      have ho2mem := (List.mem_filter.mp ho2).1
      have ho2ne : o2.poll_id ≠ pid := by
        have := (List.mem_filter.mp ho2).2
        simpa using this
      intro hideq
      exact ho2ne (hvfacts.2 o2 ho2mem hideq)
    · intro v hv p2 hp2
      have hvfacts := fact1 v (List.mem_filter.mp hv).1 (List.mem_filter.mp hv).2
      have hp2ne : p2.id ≠ pid := by
        have := (List.mem_filter.mp hp2).2
        simpa using this
      rw [hvfacts.1]
      exact hp2ne

theorem inv_applyOp (s : DBState) (op : Op) (hInv : Inv s) (hok : opOk s op) :
    Inv (applyOp s op) := by
  cases op with
  | createPoll t d u m os => exact inv_createPoll s t d u m os hInv
  | deletePoll p u => exact inv_deletePoll s p u hInv
  | castVote p o u => exact inv_vote s p o u hInv hok
  | retractVote p o u => exact inv_deleteVotesWhere s _ hInv

theorem inv_applyOps : ∀ (ops : List Op) (s : DBState), Inv s → OpsOk s ops →
    Inv (applyOps s ops) := by
  intro ops
  induction ops with
  | nil => intro s h _; exact h
  | cons op ops ih =>
    intro s hInv hok
    cases hok with
    | cons h1 h2 => exact ih _ (inv_applyOp s op hInv h1) h2

theorem inv_initState : Inv initState := by
  constructor <;> simp [initState, countsConsistent, votesCoherent]

/-! ## Execution lemmas for `voteService.vote` -/

theorem votePhase1_taken (s : DBState) (pid uid : Nat)
    (hAllow : ((s.polls.find? fun p => p.id == pid).map Poll.allow_multiple_choices).getD false
      = false)
    (hne : getUserVote s pid uid ≠ []) :
    votePhase1 s pid uid =
      deleteVotesWhere s fun v => v.poll_id == pid && v.user_id == uid := by
  unfold votePhase1
  rw [if_pos]
  simp [hAllow, List.length_pos, hne]

theorem votePhase1_skip_empty (s : DBState) (pid uid : Nat)
    (hv : getUserVote s pid uid = []) :
    votePhase1 s pid uid = s := by
  unfold votePhase1
  rw [if_neg]
  simp [hv]

theorem votePhase1_skip_multi (s : DBState) (pid uid : Nat)
    (hAllow : ((s.polls.find? fun p => p.id == pid).map Poll.allow_multiple_choices).getD false
      = true) :
    votePhase1 s pid uid = s := by
  unfold votePhase1
  rw [if_neg]
  simp [hAllow]

theorem insertVote_success (s : DBState) (pid oid uid : Nat)
    (h1 : (s.polls.any fun p => p.id == pid) = true)
    (h2 : (s.options.any fun o => o.id == oid) = true)
    (h3 : (s.votes.any fun v =>
      v.poll_id == pid && v.user_id == uid && v.option_id == oid) = false) :
    insertVote s pid oid uid =
      ({ polls := incPollTotal s.polls pid 1,
         options := incOptionVotes s.options oid 1,
         votes := s.votes ++ [⟨s.nextId, pid, oid, uid⟩],
         nextId := s.nextId + 1 }, .ok ⟨s.nextId, pid, oid, uid⟩) := by
  unfold insertVote
  simp only [h1, h2, h3, Bool.not_true, Bool.false_eq_true, if_false, Bool.not_false, if_true]
  rfl

theorem insertVote_error_state (s : DBState) (pid oid uid : Nat) (e : VoteError)
    (h : (insertVote s pid oid uid).2 = .error e) :
    (insertVote s pid oid uid).1 = s := by
  unfold insertVote at h ⊢
  cases h1 : (s.polls.any fun p => p.id == pid) with
  | false => simp [h1]
  | true =>
    cases h2 : (s.options.any fun o => o.id == oid) with
    | false => simp [h1, h2]
    | true =>
      cases h3 : (s.votes.any fun v =>
          v.poll_id == pid && v.user_id == uid && v.option_id == oid) with
      | true => simp [h1, h2, h3]
      | false => simp [h1, h2, h3] at h

theorem insertVote_ok_votes (s : DBState) (pid oid uid : Nat) {v : Vote}
    (h : (insertVote s pid oid uid).2 = .ok v) :
    v = ⟨s.nextId, pid, oid, uid⟩ ∧
      (insertVote s pid oid uid).1.votes = s.votes ++ [v] := by
  unfold insertVote at h ⊢
  cases h1 : (s.polls.any fun p => p.id == pid) with
  | false => rw [h1] at h; simp at h
  | true =>
    cases h2 : (s.options.any fun o => o.id == oid) with
    | false => rw [h1, h2] at h; simp at h
    | true =>
      cases h3 : (s.votes.any fun v =>
          v.poll_id == pid && v.user_id == uid && v.option_id == oid) with
      | true => rw [h1, h2, h3] at h; simp at h
      | false =>
        rw [h1, h2, h3] at h
        simp only [Bool.not_true, Bool.false_eq_true, if_false, Bool.not_false, if_true,
          Except.ok.injEq] at h
        subst h
        simp [h1, h2, h3]
        rfl

theorem deleteVotesWhere_votes (s : DBState) (pred : Vote → Bool) :
    (deleteVotesWhere s pred).votes = s.votes.filter fun v => !pred v := by
  rw [deleteVotesWhere_spec]

theorem deleteVotesWhere_nextId (s : DBState) (pred : Vote → Bool) :
    (deleteVotesWhere s pred).nextId = s.nextId := by
  rw [deleteVotesWhere_spec]

theorem deleteVotesWhere_polls_anyId (s : DBState) (pred : Vote → Bool) (x : Nat) :
    ((deleteVotesWhere s pred).polls.any fun p => p.id == x) =
      (s.polls.any fun p => p.id == x) := by
  rw [deleteVotesWhere_spec]
  exact anyPollId_congr (foldIncPoll_map_id _ _) x

theorem deleteVotesWhere_opts_anyId (s : DBState) (pred : Vote → Bool) (x : Nat) :
    ((deleteVotesWhere s pred).options.any fun o => o.id == x) =
      (s.options.any fun o => o.id == x) := by
  rw [deleteVotesWhere_spec]
  exact anyOptId_congr (foldIncOpt_map_id _ _) x

theorem votePhase1_polls_anyId (s : DBState) (pid uid x : Nat) :
    ((votePhase1 s pid uid).polls.any fun p => p.id == x) =
      (s.polls.any fun p => p.id == x) := by
  unfold votePhase1
  split
  · exact deleteVotesWhere_polls_anyId s _ x
  · rfl

theorem votePhase1_opts_anyId (s : DBState) (pid uid x : Nat) :
    ((votePhase1 s pid uid).options.any fun o => o.id == x) =
      (s.options.any fun o => o.id == x) := by
  unfold votePhase1
  split
  · exact deleteVotesWhere_opts_anyId s _ x
  · rfl

theorem votePhase1_nextId (s : DBState) (pid uid : Nat) :
    (votePhase1 s pid uid).nextId = s.nextId := by
  unfold votePhase1
  split
  · exact deleteVotesWhere_nextId s _
  · rfl

theorem any_filter_false {l : List Vote} {p q : Vote → Bool} (h : l.any p = false) :
    (l.filter q).any p = false := by
  rw [← Bool.not_eq_true] at h ⊢
  intro hc
  apply h
  obtain ⟨v, hv, hpv⟩ := List.any_eq_true.mp hc
  exact List.any_eq_true.mpr ⟨v, (List.mem_filter.mp hv).1, hpv⟩

theorem votePhase1_noDup (s : DBState) (pid oid uid : Nat)
    (h : (s.votes.any fun v =>
      v.poll_id == pid && v.user_id == uid && v.option_id == oid) = false) :
    ((votePhase1 s pid uid).votes.any fun v =>
      v.poll_id == pid && v.user_id == uid && v.option_id == oid) = false := by
  unfold votePhase1
  split
  · rw [deleteVotesWhere_votes]
    exact any_filter_false h
  · exact h

theorem find?_foldIncPoll_allow (vs : List Vote) : ∀ (polls : List Poll) (x : Nat),
    (((vs.foldl (fun ps v => incPollTotal ps v.poll_id (-1)) polls).find?
        fun p => p.id == x).map Poll.allow_multiple_choices) =
      ((polls.find? fun p => p.id == x).map Poll.allow_multiple_choices) := by
  induction vs with
  | nil => intro polls x; rfl
  | cons v vs ih =>
    intro polls x
    simp only [List.foldl_cons]
    rw [ih, find?_incPollTotal]
    cases polls.find? fun p => p.id == x <;> simp

theorem deleteVotesWhere_pollAllow (s : DBState) (pred : Vote → Bool) (x : Nat) :
    (((deleteVotesWhere s pred).polls.find? fun p => p.id == x).map
        Poll.allow_multiple_choices) =
      ((s.polls.find? fun p => p.id == x).map Poll.allow_multiple_choices) := by
  rw [deleteVotesWhere_spec]
  exact find?_foldIncPoll_allow _ s.polls x

theorem votePhase1_pollAllow (s : DBState) (pid uid x : Nat) :
    (((votePhase1 s pid uid).polls.find? fun p => p.id == x).map
        Poll.allow_multiple_choices) =
      ((s.polls.find? fun p => p.id == x).map Poll.allow_multiple_choices) := by
  unfold votePhase1
  split
  · exact deleteVotesWhere_pollAllow s _ x
  · rfl

theorem insertVote_pollAllow (s : DBState) (pid oid uid x : Nat) :
    (((insertVote s pid oid uid).1.polls.find? fun p => p.id == x).map
        Poll.allow_multiple_choices) =
      ((s.polls.find? fun p => p.id == x).map Poll.allow_multiple_choices) := by
  unfold insertVote
  split
  · rfl
  · split
    · rfl
    · split
      · rfl
      · show (((incPollTotal s.polls pid 1).find? fun p => p.id == x).map
            Poll.allow_multiple_choices) = _
        rw [find?_incPollTotal]
        cases s.polls.find? fun p => p.id == x <;> simp

theorem vote_pollAllow (s : DBState) (pid oid uid x : Nat) :
    (((vote s pid oid uid).1.polls.find? fun p => p.id == x).map
        Poll.allow_multiple_choices) =
      ((s.polls.find? fun p => p.id == x).map Poll.allow_multiple_choices) := by
  unfold vote
  rw [insertVote_pollAllow, votePhase1_pollAllow]

theorem filter_not_filter_nil (l : List Vote) (p : Vote → Bool) :
    (l.filter fun v => !p v).filter p = [] := by
  rw [List.filter_filter]
  have : ∀ v ∈ l, (p v && !p v) = (fun _ : Vote => false) v := by
    intro v _
    simp
  rw [List.filter_congr this, List.filter_false]

theorem vote_singleChoice_count (s : DBState) (pid oid uid : Nat)
    (hAllow : ((s.polls.find? fun p => p.id == pid).map Poll.allow_multiple_choices).getD false
      = false)
    {s2 : DBState} {v : Vote} (hok : vote s pid oid uid = (s2, .ok v)) :
    liveVoteCount s2 pid uid = 1 := by
  have h2 : (vote s pid oid uid).2 = .ok v := by rw [hok]
  have h1 : (vote s pid oid uid).1 = s2 := by rw [hok]
  unfold vote at h1 h2
  by_cases hv : getUserVote s pid uid = []
  · rw [votePhase1_skip_empty s pid uid hv] at h1 h2
    obtain ⟨hveq, hvotes⟩ := insertVote_ok_votes s pid oid uid h2
    unfold liveVoteCount getUserVote
    rw [← h1, hvotes, List.filter_append]
    unfold getUserVote at hv
    rw [hv]
    simp [hveq]
  · rw [votePhase1_taken s pid uid hAllow hv] at h1 h2
    obtain ⟨hveq, hvotes⟩ := insertVote_ok_votes _ pid oid uid h2
    unfold liveVoteCount getUserVote
    rw [← h1, hvotes, deleteVotesWhere_votes, List.filter_append, filter_not_filter_nil]
    simp [hveq]

theorem castVoteSeq_cons_ok {s s3 : DBState} {pid uid oid : Nat} {os : List Nat} {v : Vote}
    (hv : vote s pid oid uid = (s3, .ok v)) :
    castVoteSeq s pid uid (oid :: os) = castVoteSeq s3 pid uid os := by
  simp only [castVoteSeq, hv]

theorem castVoteSeq_cons_err {s s3 : DBState} {pid uid oid : Nat} {os : List Nat}
    {e : VoteError} (hv : vote s pid oid uid = (s3, .error e)) :
    castVoteSeq s pid uid (oid :: os) = none := by
  simp only [castVoteSeq, hv]

theorem castVoteSeq_count (pid uid : Nat) (s2 : DBState) : ∀ (os : List Nat) (s : DBState)
    (oid : Nat),
    ((s.polls.find? fun q => q.id == pid).map Poll.allow_multiple_choices).getD false
      = false →
    castVoteSeq s pid uid (oid :: os) = some s2 →
    liveVoteCount s2 pid uid = 1 := by
  intro os
  induction os with
  | nil =>
    intro s oid hAllow hseq
    rcases hv : vote s pid oid uid with ⟨s3, r⟩
    cases r with
    | ok v =>
      rw [castVoteSeq_cons_ok hv] at hseq
      simp only [castVoteSeq] at hseq
      injection hseq with h
      subst h
      exact vote_singleChoice_count s pid oid uid hAllow hv
    | error e =>
      rw [castVoteSeq_cons_err hv] at hseq
      cases hseq
  | cons oid2 os ih =>
    intro s oid hAllow hseq
    rcases hv : vote s pid oid uid with ⟨s3, r⟩
    cases r with
    | ok v =>
      rw [castVoteSeq_cons_ok hv] at hseq
      refine ih s3 oid2 ?_ hseq
      have hpres := vote_pollAllow s pid oid uid pid
      rw [hv] at hpres
      rw [hpres]
      exact hAllow
    | error e =>
      rw [castVoteSeq_cons_err hv] at hseq
      cases hseq

/-! ## Claim theorems -/

/-- Claim C1: for every poll whose `allow_multiple_choices` flag is false, after
any (nonempty) sequence of successful `voteService.vote` calls by the same
voter on that poll, exactly one live `votes` row exists for that
(poll, voter) pair. -/
theorem C1_single_choice_one_live_vote (s : DBState) (pid uid oid : Nat) (os : List Nat)
    (p : Poll) (hfind : (s.polls.find? fun q => q.id == pid) = some p)
    (hm : p.allow_multiple_choices = false) (s2 : DBState)
    (hseq : castVoteSeq s pid uid (oid :: os) = some s2) :
    liveVoteCount s2 pid uid = 1 := by
  refine castVoteSeq_count pid uid s2 os s oid ?_ hseq
  rw [hfind]
  simpa using hm

/-- Witness for C1: a concrete single-choice poll, a voter casting three
successful votes (option 1, then 2, then 1 again), and the resulting state
holding exactly one live vote row for the voter. -/
theorem C1_single_choice_one_live_vote_witness :
    liveVoteCount
      ⟨[⟨0, "p", none, 1, true, false, 1⟩], [⟨1, 0, "a", 1⟩, ⟨2, 0, "b", 0⟩],
        [⟨5, 0, 1, 9⟩], 6⟩ 0 9 = 1 :=
  C1_single_choice_one_live_vote
    ⟨[⟨0, "p", none, 1, true, false, 0⟩], [⟨1, 0, "a", 0⟩, ⟨2, 0, "b", 0⟩], [], 3⟩
    0 9 1 [2, 1] ⟨0, "p", none, 1, true, false, 0⟩ (by decide) rfl
    ⟨[⟨0, "p", none, 1, true, false, 1⟩], [⟨1, 0, "a", 1⟩, ⟨2, 0, "b", 0⟩],
      [⟨5, 0, 1, 9⟩], 6⟩ (by decide)

/-- A `voteService.vote` call succeeds whenever the poll id and option id both
exist and the voter holds no live vote for that exact (poll, option) pair —
with no requirement that the option belong to the poll, and no requirement on
`is_active`. -/
theorem vote_success (s : DBState) (pid oid uid : Nat)
    (hpoll : (s.polls.any fun p => p.id == pid) = true)
    (hopt : (s.options.any fun o => o.id == oid) = true)
    (hnodup : (s.votes.any fun v =>
      v.poll_id == pid && v.user_id == uid && v.option_id == oid) = false) :
    (vote s pid oid uid).2 = .ok ⟨s.nextId, pid, oid, uid⟩ ∧
      ⟨s.nextId, pid, oid, uid⟩ ∈ (vote s pid oid uid).1.votes := by
  unfold vote
  have h1 : ((votePhase1 s pid uid).polls.any fun p => p.id == pid) = true := by
    rw [votePhase1_polls_anyId]; exact hpoll
  have h2 : ((votePhase1 s pid uid).options.any fun o => o.id == oid) = true := by
    rw [votePhase1_opts_anyId]; exact hopt
  have h3 := votePhase1_noDup s pid oid uid hnodup
  have hins := insertVote_success (votePhase1 s pid uid) pid oid uid h1 h2 h3
  rw [hins, votePhase1_nextId]
  exact ⟨rfl, by simp⟩

/-- Counterexample to claim C2 as stated: `voteService.vote` does not check
that the option belongs to the poll, so casting a vote on poll 0 for option 4
(which belongs to poll 3) makes poll 0's cached total differ from the sum of
its options' counts. -/
theorem C2_counterexample :
    ¬ countsConsistent (applyOps initState
      [.createPoll "p1" none 1 false ["a", "b"],
       .createPoll "p2" none 1 false ["c", "d"],
       .castVote 0 4 9]) := by
  decide

/-- Claim C2 (amended): after any sequence of operations from the empty
database in which every `castVote` passes an option id that, when it names an
existing option, belongs to the requested poll, every poll's cached
`total_votes` equals the sum of its options' cached `votes`. -/
theorem C2_total_votes_eq_option_sum (ops : List Op) (hok : OpsOk initState ops) :
    countsConsistent (applyOps initState ops) :=
  (inv_applyOps ops initState inv_initState hok).counts

/-- Witness for C2: a concrete run of poll creation, voting, switching,
retracting and poll deletion, after which the tally invariant holds. -/
theorem C2_total_votes_eq_option_sum_witness :
    countsConsistent (applyOps initState
      [.createPoll "p1" none 1 false ["a", "b"],
       .castVote 0 1 9, .castVote 0 2 9, .retractVote 0 2 9, .deletePoll 0 1]) :=
  C2_total_votes_eq_option_sum _
    (.cons (by decide) (.cons (by decide) (.cons (by decide) (.cons (by decide)
      (.cons (by decide) (.nil _))))))

/-- Counterexample to claim C3 as stated: on a poll with `is_active = false`
the `voteService.vote` call does not fail with any inactive-poll error — it
succeeds, and the option count changes from 0 to 1. -/
theorem C3_counterexample :
    (vote ⟨[⟨0, "p", none, 1, false, false, 0⟩], [⟨1, 0, "a", 0⟩, ⟨2, 0, "b", 0⟩], [], 3⟩
        0 1 9).2 = .ok ⟨3, 0, 1, 9⟩ ∧
    optionVotes (vote ⟨[⟨0, "p", none, 1, false, false, 0⟩],
        [⟨1, 0, "a", 0⟩, ⟨2, 0, "b", 0⟩], [], 3⟩ 0 1 9).1 1 = 1 ∧
    pollTotal (vote ⟨[⟨0, "p", none, 1, false, false, 0⟩],
        [⟨1, 0, "a", 0⟩, ⟨2, 0, "b", 0⟩], [], 3⟩ 0 1 9).1 0 = 1 := by
  decide

/-- Claim C3 (amended): `voteService.vote` performs no `is_active` check, so a
cast on an inactive poll succeeds under the same conditions as on an active
one; the only inactive-poll gate in the repository is the UI guard `canVote`
(`poll-card.tsx`), which is false whenever the poll is inactive. -/
theorem C3_no_is_active_check (s : DBState) (pid oid uid : Nat) (p : Poll)
    (hfind : (s.polls.find? fun q => q.id == pid) = some p)
    (hinactive : p.is_active = false)
    (hopt : (s.options.any fun o => o.id == oid) = true)
    (hnodup : (s.votes.any fun v =>
      v.poll_id == pid && v.user_id == uid && v.option_id == oid) = false) :
    (vote s pid oid uid).2 = .ok ⟨s.nextId, pid, oid, uid⟩ ∧
      (∀ hasVoted hasHandler, canVote p.is_active hasVoted hasHandler = false) := by
  have hpoll : (s.polls.any fun q => q.id == pid) = true := by
    refine List.any_eq_true.mpr ⟨p, List.mem_of_find?_eq_some hfind, ?_⟩
    simpa using List.find?_some hfind
  refine ⟨(vote_success s pid oid uid hpoll hopt hnodup).1, ?_⟩
  intro hv hh
  rw [hinactive]
  rfl

/-- Witness for C3: the concrete inactive poll of the counterexample, on which
the cast succeeds and `canVote` is false. -/
theorem C3_no_is_active_check_witness :
    (vote ⟨[⟨0, "q", none, 1, false, false, 0⟩], [⟨1, 0, "a", 0⟩, ⟨2, 0, "b", 0⟩], [], 3⟩
        0 2 9).2 = .ok ⟨3, 0, 2, 9⟩ ∧
      (∀ hasVoted hasHandler,
        canVote (Poll.mk 0 "q" none 1 false false 0).is_active hasVoted hasHandler = false) :=
  C3_no_is_active_check ⟨[⟨0, "q", none, 1, false, false, 0⟩],
    [⟨1, 0, "a", 0⟩, ⟨2, 0, "b", 0⟩], [], 3⟩ 0 2 9 ⟨0, "q", none, 1, false, false, 0⟩
    rfl rfl (by decide) (by decide)

/-- Counterexample to claim C4 as stated: a `voteService.vote` call for an
option of a different poll does not fail before mutation — it succeeds, and
the resulting state holds a live vote row whose option does not belong to the
vote's poll (`votesCoherent` is violated). -/
theorem C4_counterexample :
    (vote ⟨[⟨0, "p1", none, 1, true, false, 0⟩, ⟨3, "p2", none, 1, true, false, 0⟩],
        [⟨1, 0, "a", 0⟩, ⟨2, 0, "b", 0⟩, ⟨4, 3, "c", 0⟩, ⟨5, 3, "d", 0⟩], [], 6⟩
        0 4 9).2 = .ok ⟨6, 0, 4, 9⟩ ∧
    ¬ votesCoherent (vote ⟨[⟨0, "p1", none, 1, true, false, 0⟩,
        ⟨3, "p2", none, 1, true, false, 0⟩],
        [⟨1, 0, "a", 0⟩, ⟨2, 0, "b", 0⟩, ⟨4, 3, "c", 0⟩, ⟨5, 3, "d", 0⟩], [], 6⟩ 0 4 9).1 := by
  decide

/-- Claim C4 (amended): the service performs no option-membership check: a
`castVote` whose option id exists but belongs to a different poll succeeds and
creates a live vote row referencing the foreign option; only a nonexistent
option id makes the insert fail (a foreign-key violation, not an
option-not-in-poll error). -/
theorem C4_no_membership_check (s : DBState) (pid oid uid : Nat) (o : PollOption)
    (ho : o ∈ s.options) (hid : o.id = oid) (_hforeign : o.poll_id ≠ pid)
    (hpoll : (s.polls.any fun p => p.id == pid) = true)
    (hnodup : (s.votes.any fun v =>
      v.poll_id == pid && v.user_id == uid && v.option_id == oid) = false) :
    (vote s pid oid uid).2 = .ok ⟨s.nextId, pid, oid, uid⟩ ∧
      ⟨s.nextId, pid, oid, uid⟩ ∈ (vote s pid oid uid).1.votes := by
  have hopt : (s.options.any fun u => u.id == oid) = true :=
    List.any_eq_true.mpr ⟨o, ho, by simp [hid]⟩
  exact vote_success s pid oid uid hpoll hopt hnodup

/-- Witness for C4: the concrete two-poll state, voting on poll 0 for option 4
of poll 3. -/
theorem C4_no_membership_check_witness :
    (vote ⟨[⟨0, "p1", none, 1, true, false, 0⟩, ⟨3, "p2", none, 1, true, false, 0⟩],
        [⟨1, 0, "a", 0⟩, ⟨2, 0, "b", 0⟩, ⟨4, 3, "c", 0⟩, ⟨5, 3, "d", 0⟩], [], 6⟩
        0 5 9).2 = .ok ⟨6, 0, 5, 9⟩ ∧
      ⟨6, 0, 5, 9⟩ ∈ (vote ⟨[⟨0, "p1", none, 1, true, false, 0⟩,
        ⟨3, "p2", none, 1, true, false, 0⟩],
        [⟨1, 0, "a", 0⟩, ⟨2, 0, "b", 0⟩, ⟨4, 3, "c", 0⟩, ⟨5, 3, "d", 0⟩], [], 6⟩ 0 5 9).1.votes :=
  C4_no_membership_check ⟨[⟨0, "p1", none, 1, true, false, 0⟩,
      ⟨3, "p2", none, 1, true, false, 0⟩],
      [⟨1, 0, "a", 0⟩, ⟨2, 0, "b", 0⟩, ⟨4, 3, "c", 0⟩, ⟨5, 3, "d", 0⟩], [], 6⟩
    0 5 9 ⟨5, 3, "d", 0⟩ (by decide) rfl (by decide) (by decide) (by decide)

/-- Claim C5: on a multiple-choice poll, a `voteService.vote` call for an
option the voter already holds a live vote for fails with the duplicate-vote
error (the `UNIQUE(poll_id, user_id, option_id)` violation), and the database
state — hence every option count and the poll's total — is exactly unchanged. -/
theorem C5_duplicate_vote_on_multi (s : DBState) (pid oid uid : Nat) (p : Poll) (vex : Vote)
    (hfind : (s.polls.find? fun q => q.id == pid) = some p)
    (hm : p.allow_multiple_choices = true)
    (hvex : vex ∈ s.votes) (hvp : vex.poll_id = pid) (hvu : vex.user_id = uid)
    (hvo : vex.option_id = oid)
    (hopt : (s.options.any fun o => o.id == oid) = true) :
    vote s pid oid uid = (s, .error .duplicateVote) := by
  unfold vote
  rw [votePhase1_skip_multi s pid uid (by rw [hfind]; simpa using hm)]
  have hpoll : (s.polls.any fun q => q.id == pid) = true := by
    refine List.any_eq_true.mpr ⟨p, List.mem_of_find?_eq_some hfind, ?_⟩
    simpa using List.find?_some hfind
  have hdup : (s.votes.any fun v =>
      v.poll_id == pid && v.user_id == uid && v.option_id == oid) = true :=
    List.any_eq_true.mpr ⟨vex, hvex, by simp [hvp, hvu, hvo]⟩
  unfold insertVote
  simp [hpoll, hopt, hdup]

/-- Witness for C5: a concrete multiple-choice poll on which the voter
re-votes their existing option and the state is returned unchanged with the
duplicate-vote error. -/
theorem C5_duplicate_vote_on_multi_witness :
    vote ⟨[⟨0, "m", none, 1, true, true, 1⟩], [⟨1, 0, "a", 1⟩, ⟨2, 0, "b", 0⟩],
        [⟨3, 0, 1, 9⟩], 4⟩ 0 1 9 =
      (⟨[⟨0, "m", none, 1, true, true, 1⟩], [⟨1, 0, "a", 1⟩, ⟨2, 0, "b", 0⟩],
        [⟨3, 0, 1, 9⟩], 4⟩, .error .duplicateVote) :=
  C5_duplicate_vote_on_multi ⟨[⟨0, "m", none, 1, true, true, 1⟩],
      [⟨1, 0, "a", 1⟩, ⟨2, 0, "b", 0⟩], [⟨3, 0, 1, 9⟩], 4⟩ 0 1 9
    ⟨0, "m", none, 1, true, true, 1⟩ ⟨3, 0, 1, 9⟩ rfl rfl (by decide) rfl rfl rfl (by decide)

/-- Claim C6: on a single-choice poll where the voter's only live vote is for
option A, a successful `voteService.vote` for a different option B decrements
A's cached count by exactly 1, increments B's by exactly 1, and leaves the
poll's cached total unchanged. -/
theorem C6_switch_option (s : DBState) (pid uid oidA oidB : Nat) (p : Poll) (vA : Vote)
    (hfind : (s.polls.find? fun q => q.id == pid) = some p)
    (hm : p.allow_multiple_choices = false)
    (hv : getUserVote s pid uid = [vA]) (hvo : vA.option_id = oidA)
    (hA : ((s.options.find? fun o => o.id == oidA)).isSome = true)
    (hB : (s.options.any fun o => o.id == oidB) = true)
    (hAB : oidA ≠ oidB) :
    (vote s pid oidB uid).2 = .ok ⟨s.nextId, pid, oidB, uid⟩ ∧
    optionVotes (vote s pid oidB uid).1 oidA = optionVotes s oidA - 1 ∧
    optionVotes (vote s pid oidB uid).1 oidB = optionVotes s oidB + 1 ∧
    pollTotal (vote s pid oidB uid).1 pid = pollTotal s pid := by
  have hAllow : ((s.polls.find? fun q => q.id == pid).map
      Poll.allow_multiple_choices).getD false = false := by
    rw [hfind]; simpa using hm
  have hne : getUserVote s pid uid ≠ [] := by rw [hv]; simp
  have hphase := votePhase1_taken s pid uid hAllow hne
  have hvAmem : vA ∈ getUserVote s pid uid := by rw [hv]; exact List.mem_cons_self vA []
  have hvAprop : vA.poll_id = pid ∧ vA.user_id = uid := by
    unfold getUserVote at hvAmem
    have := (List.mem_filter.mp hvAmem).2
    simpa using this
  have hspec : deleteVotesWhere s (fun v => v.poll_id == pid && v.user_id == uid) =
      { polls := incPollTotal s.polls vA.poll_id (-1),
        options := incOptionVotes s.options vA.option_id (-1),
        votes := s.votes.filter fun v => !(v.poll_id == pid && v.user_id == uid),
        nextId := s.nextId } := by
    rw [deleteVotesWhere_spec]
    have hfv : (s.votes.filter fun v => v.poll_id == pid && v.user_id == uid) = [vA] := hv
    rw [hfv]
    rfl
  have hpoll : (s.polls.any fun q => q.id == pid) = true := by
    refine List.any_eq_true.mpr ⟨p, List.mem_of_find?_eq_some hfind, ?_⟩
    simpa using List.find?_some hfind
  have h1 : ((votePhase1 s pid uid).polls.any fun q => q.id == pid) = true := by
    rw [votePhase1_polls_anyId]; exact hpoll
  have h2 : ((votePhase1 s pid uid).options.any fun o => o.id == oidB) = true := by
    rw [votePhase1_opts_anyId]; exact hB
  have h3 : ((votePhase1 s pid uid).votes.any fun v =>
      v.poll_id == pid && v.user_id == uid && v.option_id == oidB) = false := by
    rw [hphase, hspec]
    show ((s.votes.filter fun v => !(v.poll_id == pid && v.user_id == uid)).any fun v =>
      v.poll_id == pid && v.user_id == uid && v.option_id == oidB) = false
    rw [← Bool.not_eq_true]
    intro hc
    obtain ⟨w, hw, hdup⟩ := List.any_eq_true.mp hc
    have hwk := (List.mem_filter.mp hw).2
    obtain ⟨⟨hd1, hd2⟩, hd3⟩ :
        (w.poll_id = pid ∧ w.user_id = uid) ∧ w.option_id = oidB := by
      simpa using hdup
    simp [hd1, hd2] at hwk
  have hins := insertVote_success (votePhase1 s pid uid) pid oidB uid h1 h2 h3
  have hvote : vote s pid oidB uid =
      ({ polls := incPollTotal (incPollTotal s.polls pid (-1)) pid 1,
         options := incOptionVotes (incOptionVotes s.options oidA (-1)) oidB 1,
         votes := (s.votes.filter fun v => !(v.poll_id == pid && v.user_id == uid)) ++
           [⟨s.nextId, pid, oidB, uid⟩],
         nextId := s.nextId + 1 }, .ok ⟨s.nextId, pid, oidB, uid⟩) := by
    show insertVote (votePhase1 s pid uid) pid oidB uid = _
    rw [hins, hphase, hspec, hvAprop.1, hvo]
  have hsomeA : ((incOptionVotes s.options oidA (-1)).find? fun o => o.id == oidA).isSome
      = true := by
    rw [find?_incOptionVotes]
    simpa using hA
  have hsomeBorig : ((s.options.find? fun o => o.id == oidB)).isSome = true :=
    List.find?_isSome.mpr (List.any_eq_true.mp hB)
  have hsomeB : ((incOptionVotes s.options oidA (-1)).find? fun o => o.id == oidB).isSome
      = true := by
    rw [find?_incOptionVotes]
    simpa using hsomeBorig
  have hsomeP : ((s.polls.find? fun q => q.id == pid)).isSome = true := by
    rw [hfind]; rfl
  have hsomeP2 : ((incPollTotal s.polls pid (-1)).find? fun q => q.id == pid).isSome
      = true := by
    rw [find?_incPollTotal]
    simpa using hsomeP
  refine ⟨by rw [hvote], ?_, ?_, ?_⟩
  · rw [hvote]
    show optionVotesL (incOptionVotes (incOptionVotes s.options oidA (-1)) oidB 1) oidA =
      optionVotesL s.options oidA - 1
    rw [optionVotesL_inc_ne _ _ _ _ hAB, optionVotesL_inc_self _ _ _ hA]
    omega
  · rw [hvote]
    show optionVotesL (incOptionVotes (incOptionVotes s.options oidA (-1)) oidB 1) oidB =
      optionVotesL s.options oidB + 1
    rw [optionVotesL_inc_self _ _ _ hsomeB, optionVotesL_inc_ne _ _ _ _ (Ne.symm hAB)]
  · rw [hvote]
    show pollTotalL (incPollTotal (incPollTotal s.polls pid (-1)) pid 1) pid =
      pollTotalL s.polls pid
    rw [pollTotalL_inc_self _ _ _ hsomeP2, pollTotalL_inc_self _ _ _ hsomeP]
    omega

/-- Witness for C6: a concrete single-choice poll where voter 9 holds a vote
for option 1 and switches to option 2. -/
theorem C6_switch_option_witness :
    (vote ⟨[⟨0, "p", none, 1, true, false, 1⟩], [⟨1, 0, "a", 1⟩, ⟨2, 0, "b", 0⟩],
        [⟨3, 0, 1, 9⟩], 4⟩ 0 2 9).2 = .ok ⟨4, 0, 2, 9⟩ ∧
    optionVotes (vote ⟨[⟨0, "p", none, 1, true, false, 1⟩], [⟨1, 0, "a", 1⟩, ⟨2, 0, "b", 0⟩],
        [⟨3, 0, 1, 9⟩], 4⟩ 0 2 9).1 1 =
      optionVotes ⟨[⟨0, "p", none, 1, true, false, 1⟩], [⟨1, 0, "a", 1⟩, ⟨2, 0, "b", 0⟩],
        [⟨3, 0, 1, 9⟩], 4⟩ 1 - 1 ∧
    optionVotes (vote ⟨[⟨0, "p", none, 1, true, false, 1⟩], [⟨1, 0, "a", 1⟩, ⟨2, 0, "b", 0⟩],
        [⟨3, 0, 1, 9⟩], 4⟩ 0 2 9).1 2 =
      optionVotes ⟨[⟨0, "p", none, 1, true, false, 1⟩], [⟨1, 0, "a", 1⟩, ⟨2, 0, "b", 0⟩],
        [⟨3, 0, 1, 9⟩], 4⟩ 2 + 1 ∧
    pollTotal (vote ⟨[⟨0, "p", none, 1, true, false, 1⟩], [⟨1, 0, "a", 1⟩, ⟨2, 0, "b", 0⟩],
        [⟨3, 0, 1, 9⟩], 4⟩ 0 2 9).1 0 =
      pollTotal ⟨[⟨0, "p", none, 1, true, false, 1⟩], [⟨1, 0, "a", 1⟩, ⟨2, 0, "b", 0⟩],
        [⟨3, 0, 1, 9⟩], 4⟩ 0 :=
  C6_switch_option ⟨[⟨0, "p", none, 1, true, false, 1⟩], [⟨1, 0, "a", 1⟩, ⟨2, 0, "b", 0⟩],
      [⟨3, 0, 1, 9⟩], 4⟩ 0 9 1 2 ⟨0, "p", none, 1, true, false, 1⟩ ⟨3, 0, 1, 9⟩
    rfl rfl rfl rfl (by decide) (by decide) (by decide)

/-- Claim C10: on a single-choice poll, a `voteService.vote` call for the very
option the voter already holds a live vote for does not fail as a duplicate:
the existing vote rows of the voter on the poll are deleted and a fresh row
with a new id is inserted for the same option, so the call succeeds and the
polls and options tables — hence every cached count — end exactly as they
started. -/
theorem C10_revote_same_option (s : DBState) (pid oid uid : Nat) (p : Poll) (vA : Vote)
    (hfind : (s.polls.find? fun q => q.id == pid) = some p)
    (hm : p.allow_multiple_choices = false)
    (hv : getUserVote s pid uid = [vA]) (hvo : vA.option_id = oid)
    (hopt : (s.options.any fun o => o.id == oid) = true) :
    vote s pid oid uid =
      ({ s with
           votes := (s.votes.filter fun v => !(v.poll_id == pid && v.user_id == uid)) ++
             [⟨s.nextId, pid, oid, uid⟩],
           nextId := s.nextId + 1 },
        .ok ⟨s.nextId, pid, oid, uid⟩) := by
  have hAllow : ((s.polls.find? fun q => q.id == pid).map
      Poll.allow_multiple_choices).getD false = false := by
    rw [hfind]; simpa using hm
  have hne : getUserVote s pid uid ≠ [] := by rw [hv]; simp
  have hphase := votePhase1_taken s pid uid hAllow hne
  have hvAmem : vA ∈ getUserVote s pid uid := by rw [hv]; exact List.mem_cons_self vA []
  have hvAprop : vA.poll_id = pid ∧ vA.user_id = uid := by
    unfold getUserVote at hvAmem
    have := (List.mem_filter.mp hvAmem).2
    simpa using this
  have hspec : deleteVotesWhere s (fun v => v.poll_id == pid && v.user_id == uid) =
      { polls := incPollTotal s.polls vA.poll_id (-1),
        options := incOptionVotes s.options vA.option_id (-1),
        votes := s.votes.filter fun v => !(v.poll_id == pid && v.user_id == uid),
        nextId := s.nextId } := by
    rw [deleteVotesWhere_spec]
    have hfv : (s.votes.filter fun v => v.poll_id == pid && v.user_id == uid) = [vA] := hv
    rw [hfv]
    rfl
  have hpoll : (s.polls.any fun q => q.id == pid) = true := by
    refine List.any_eq_true.mpr ⟨p, List.mem_of_find?_eq_some hfind, ?_⟩
    simpa using List.find?_some hfind
  have h1 : ((votePhase1 s pid uid).polls.any fun q => q.id == pid) = true := by
    rw [votePhase1_polls_anyId]; exact hpoll
  have h2 : ((votePhase1 s pid uid).options.any fun o => o.id == oid) = true := by
    rw [votePhase1_opts_anyId]; exact hopt
  have h3 : ((votePhase1 s pid uid).votes.any fun v =>
      v.poll_id == pid && v.user_id == uid && v.option_id == oid) = false := by
    rw [hphase, hspec]
    show ((s.votes.filter fun v => !(v.poll_id == pid && v.user_id == uid)).any fun v =>
      v.poll_id == pid && v.user_id == uid && v.option_id == oid) = false
    rw [← Bool.not_eq_true]
    intro hc
    obtain ⟨w, hw, hdup⟩ := List.any_eq_true.mp hc
    have hwk := (List.mem_filter.mp hw).2
    obtain ⟨⟨hd1, hd2⟩, hd3⟩ :
        (w.poll_id = pid ∧ w.user_id = uid) ∧ w.option_id = oid := by
      simpa using hdup
    simp [hd1, hd2] at hwk
  have hins := insertVote_success (votePhase1 s pid uid) pid oid uid h1 h2 h3
  show insertVote (votePhase1 s pid uid) pid oid uid = _
  rw [hins, hphase, hspec, hvAprop.1, hvo]
  simp only []
  rw [incPollTotal_cancel, incOptionVotes_cancel]

/-- Witness for C10: voter 9 re-votes option 1 on a concrete single-choice
poll; the call succeeds, the vote row's id is replaced (3 becomes 4), and
polls and options are unchanged. -/
theorem C10_revote_same_option_witness :
    vote ⟨[⟨0, "p", none, 1, true, false, 1⟩], [⟨1, 0, "a", 1⟩, ⟨2, 0, "b", 0⟩],
        [⟨3, 0, 1, 9⟩], 4⟩ 0 1 9 =
      ({ polls := [⟨0, "p", none, 1, true, false, 1⟩],
         options := [⟨1, 0, "a", 1⟩, ⟨2, 0, "b", 0⟩],
         votes := [⟨4, 0, 1, 9⟩], nextId := 5 }, .ok ⟨4, 0, 1, 9⟩) :=
  C10_revote_same_option ⟨[⟨0, "p", none, 1, true, false, 1⟩],
      [⟨1, 0, "a", 1⟩, ⟨2, 0, "b", 0⟩], [⟨3, 0, 1, 9⟩], 4⟩ 0 1 9
    ⟨0, "p", none, 1, true, false, 1⟩ ⟨3, 0, 1, 9⟩ rfl rfl rfl rfl (by decide)

/-- Counterexample to claim C7 as stated: `voteService.removeVote` for a
(poll, option, voter) triple with no live vote does not fail — Supabase
reports no error for a delete matching zero rows, so the call succeeds as a
no-op, returning the state unchanged instead of a `VoteNotFound` failure. -/
theorem C7_counterexample :
    removeVote ⟨[⟨0, "p", none, 1, true, false, 0⟩], [⟨1, 0, "a", 0⟩, ⟨2, 0, "b", 0⟩], [], 3⟩
        0 1 9 =
      ⟨[⟨0, "p", none, 1, true, false, 0⟩], [⟨1, 0, "a", 0⟩, ⟨2, 0, "b", 0⟩], [], 3⟩ := by
  decide

/-- Claim C7 (amended): `removeVote` never fails.  When the voter holds no
live vote for the (poll, option) pair it is a no-op returning the state
unchanged; when exactly one such vote exists (the unique-constraint maximum),
it removes exactly that row and the trigger decrements the option's cached
count and the poll's cached total by exactly 1. -/
theorem C7_removeVote_never_fails (s : DBState) (pid oid uid : Nat) :
    ((s.votes.filter fun v => v.poll_id == pid && v.option_id == oid && v.user_id == uid)
        = [] → removeVote s pid oid uid = s) ∧
    (∀ w : Vote,
      (s.votes.filter fun v => v.poll_id == pid && v.option_id == oid && v.user_id == uid)
        = [w] →
      (removeVote s pid oid uid).votes =
        (s.votes.filter fun v =>
          !(v.poll_id == pid && v.option_id == oid && v.user_id == uid)) ∧
      ((s.options.find? fun o => o.id == oid).isSome = true →
        optionVotes (removeVote s pid oid uid) oid = optionVotes s oid - 1) ∧
      ((s.polls.find? fun q => q.id == pid).isSome = true →
        pollTotal (removeVote s pid oid uid) pid = pollTotal s pid - 1)) := by
  constructor
  · intro hempty
    unfold removeVote
    rw [deleteVotesWhere_spec, hempty]
    simp only [List.foldl_nil]
    have hkeep : (s.votes.filter fun v =>
        !(v.poll_id == pid && v.option_id == oid && v.user_id == uid)) = s.votes := by
      rw [List.filter_eq_self]
      intro a ha
      have hnot : ¬((a.poll_id == pid && a.option_id == oid && a.user_id == uid) = true) := by
        intro hc
        have : a ∈ s.votes.filter fun v =>
            v.poll_id == pid && v.option_id == oid && v.user_id == uid :=
          List.mem_filter.mpr ⟨ha, hc⟩
        rw [hempty] at this
        cases this
      cases hb : (a.poll_id == pid && a.option_id == oid && a.user_id == uid) with
      | false => simp [hb]
      | true => exact absurd hb hnot
    rw [hkeep]
  · intro w hfw
    have hwmem : w ∈ s.votes.filter fun v =>
        v.poll_id == pid && v.option_id == oid && v.user_id == uid := by
      rw [hfw]; exact List.mem_cons_self w []
    have hwprop : (w.poll_id = pid ∧ w.option_id = oid) ∧ w.user_id = uid := by
      have := (List.mem_filter.mp hwmem).2
      simpa using this
    have hrm : removeVote s pid oid uid =
        { polls := incPollTotal s.polls pid (-1),
          options := incOptionVotes s.options oid (-1),
          votes := s.votes.filter fun v =>
            !(v.poll_id == pid && v.option_id == oid && v.user_id == uid),
          nextId := s.nextId } := by
      unfold removeVote
      rw [deleteVotesWhere_spec, hfw]
      simp only [List.foldl_cons, List.foldl_nil]
      rw [hwprop.1.1, hwprop.1.2]
    refine ⟨by rw [hrm], fun hsome => ?_, fun hsomeP => ?_⟩
    · rw [hrm]
      show optionVotesL (incOptionVotes s.options oid (-1)) oid =
        optionVotesL s.options oid - 1
      rw [optionVotesL_inc_self _ _ _ hsome]
      omega
    · rw [hrm]
      show pollTotalL (incPollTotal s.polls pid (-1)) pid = pollTotalL s.polls pid - 1
      rw [pollTotalL_inc_self _ _ _ hsomeP]
      omega

/-- Witness for C7: both branches at concrete states — a no-op removal on a
voteless state, and a real removal decrementing the counts by 1. -/
theorem C7_removeVote_never_fails_witness :
    removeVote ⟨[⟨0, "p", none, 1, true, false, 2⟩], [⟨1, 0, "a", 2⟩], [⟨3, 0, 1, 7⟩],
        4⟩ 0 1 9 =
      ⟨[⟨0, "p", none, 1, true, false, 2⟩], [⟨1, 0, "a", 2⟩], [⟨3, 0, 1, 7⟩], 4⟩ ∧
    optionVotes (removeVote ⟨[⟨0, "p", none, 1, true, false, 2⟩], [⟨1, 0, "a", 2⟩],
        [⟨3, 0, 1, 7⟩], 4⟩ 0 1 7) 1 =
      optionVotes ⟨[⟨0, "p", none, 1, true, false, 2⟩], [⟨1, 0, "a", 2⟩],
        [⟨3, 0, 1, 7⟩], 4⟩ 1 - 1 ∧
    pollTotal (removeVote ⟨[⟨0, "p", none, 1, true, false, 2⟩], [⟨1, 0, "a", 2⟩],
        [⟨3, 0, 1, 7⟩], 4⟩ 0 1 7) 0 =
      pollTotal ⟨[⟨0, "p", none, 1, true, false, 2⟩], [⟨1, 0, "a", 2⟩],
        [⟨3, 0, 1, 7⟩], 4⟩ 0 - 1 :=
  ⟨(C7_removeVote_never_fails ⟨[⟨0, "p", none, 1, true, false, 2⟩], [⟨1, 0, "a", 2⟩],
      [⟨3, 0, 1, 7⟩], 4⟩ 0 1 9).1 (by decide),
   ((C7_removeVote_never_fails ⟨[⟨0, "p", none, 1, true, false, 2⟩], [⟨1, 0, "a", 2⟩],
      [⟨3, 0, 1, 7⟩], 4⟩ 0 1 7).2 ⟨3, 0, 1, 7⟩ (by decide)).2.1 (by decide),
   ((C7_removeVote_never_fails ⟨[⟨0, "p", none, 1, true, false, 2⟩], [⟨1, 0, "a", 2⟩],
      [⟨3, 0, 1, 7⟩], 4⟩ 0 1 7).2 ⟨3, 0, 1, 7⟩ (by decide)).2.2 (by decide)⟩

/-- Counterexample to claim C8 as stated: on a single-choice poll where voter
9 holds a live vote for option 1, a `voteService.vote` call for a nonexistent
option 99 returns an error, yet the voter's old vote is already deleted and
the counts already decremented — the failed call observably changed state. -/
theorem C8_counterexample :
    (vote ⟨[⟨0, "p", none, 1, true, false, 1⟩], [⟨1, 0, "a", 1⟩, ⟨2, 0, "b", 0⟩],
        [⟨3, 0, 1, 9⟩], 4⟩ 0 99 9).2 = .error .optionNotFound ∧
    liveVoteCount ⟨[⟨0, "p", none, 1, true, false, 1⟩], [⟨1, 0, "a", 1⟩, ⟨2, 0, "b", 0⟩],
        [⟨3, 0, 1, 9⟩], 4⟩ 0 9 = 1 ∧
    liveVoteCount (vote ⟨[⟨0, "p", none, 1, true, false, 1⟩], [⟨1, 0, "a", 1⟩, ⟨2, 0, "b", 0⟩],
        [⟨3, 0, 1, 9⟩], 4⟩ 0 99 9).1 0 9 = 0 ∧
    optionVotes (vote ⟨[⟨0, "p", none, 1, true, false, 1⟩], [⟨1, 0, "a", 1⟩, ⟨2, 0, "b", 0⟩],
        [⟨3, 0, 1, 9⟩], 4⟩ 0 99 9).1 1 = 0 ∧
    pollTotal (vote ⟨[⟨0, "p", none, 1, true, false, 1⟩], [⟨1, 0, "a", 1⟩, ⟨2, 0, "b", 0⟩],
        [⟨3, 0, 1, 9⟩], 4⟩ 0 99 9).1 0 = 0 := by
  decide

/-- Claim C8 (amended): on failure, `voteService.vote` leaves the database in
exactly the state produced by its conditional-retraction phase: unchanged
whenever no retraction ran (voter had no live votes on the poll, or the poll
is multiple-choice), but with the voter's old votes already removed when the
single-choice retract-then-insert path had deleted them before the insert
failed. -/
theorem C8_failure_leaves_phase1_state (s : DBState) (pid oid uid : Nat) (e : VoteError)
    (herr : (vote s pid oid uid).2 = .error e) :
    (vote s pid oid uid).1 = votePhase1 s pid uid ∧
    (getUserVote s pid uid = [] → (vote s pid oid uid).1 = s) ∧
    (((s.polls.find? fun q => q.id == pid).map Poll.allow_multiple_choices).getD false
        = true → (vote s pid oid uid).1 = s) := by
  have h1 : (vote s pid oid uid).1 = votePhase1 s pid uid := by
    unfold vote at herr ⊢
    exact insertVote_error_state _ pid oid uid e herr
  refine ⟨h1, ?_, ?_⟩
  · intro hempty
    rw [h1, votePhase1_skip_empty s pid uid hempty]
  · intro hmulti
    rw [h1, votePhase1_skip_multi s pid uid hmulti]

/-- Witness for C8: a failing duplicate cast on a multiple-choice poll, where
no retraction runs and the state is unchanged. -/
theorem C8_failure_leaves_phase1_state_witness :
    (vote ⟨[⟨0, "m", none, 1, true, true, 1⟩], [⟨1, 0, "a", 1⟩], [⟨3, 0, 1, 9⟩], 4⟩
        0 1 9).1 =
      votePhase1 ⟨[⟨0, "m", none, 1, true, true, 1⟩], [⟨1, 0, "a", 1⟩], [⟨3, 0, 1, 9⟩], 4⟩
        0 9 ∧
    (getUserVote ⟨[⟨0, "m", none, 1, true, true, 1⟩], [⟨1, 0, "a", 1⟩], [⟨3, 0, 1, 9⟩], 4⟩
        0 9 = [] →
      (vote ⟨[⟨0, "m", none, 1, true, true, 1⟩], [⟨1, 0, "a", 1⟩], [⟨3, 0, 1, 9⟩], 4⟩
        0 1 9).1 =
      ⟨[⟨0, "m", none, 1, true, true, 1⟩], [⟨1, 0, "a", 1⟩], [⟨3, 0, 1, 9⟩], 4⟩) ∧
    ((((⟨[⟨0, "m", none, 1, true, true, 1⟩], [⟨1, 0, "a", 1⟩], [⟨3, 0, 1, 9⟩], 4⟩ :
          DBState).polls.find? fun q => q.id == 0).map
        Poll.allow_multiple_choices).getD false = true →
      (vote ⟨[⟨0, "m", none, 1, true, true, 1⟩], [⟨1, 0, "a", 1⟩], [⟨3, 0, 1, 9⟩], 4⟩
        0 1 9).1 =
      ⟨[⟨0, "m", none, 1, true, true, 1⟩], [⟨1, 0, "a", 1⟩], [⟨3, 0, 1, 9⟩], 4⟩) :=
  C8_failure_leaves_phase1_state
    ⟨[⟨0, "m", none, 1, true, true, 1⟩], [⟨1, 0, "a", 1⟩], [⟨3, 0, 1, 9⟩], 4⟩ 0 1 9
    .duplicateVote (by decide)

theorem insertByVotes_ne_nil (o : PollOptionUI) (l : List PollOptionUI) :
    insertByVotes o l ≠ [] := by
  cases l with
  | nil => simp [insertByVotes]
  | cons x xs =>
    unfold insertByVotes
    split <;> simp

theorem sortByVotesDesc_nil_iff (l : List PollOptionUI) :
    sortByVotesDesc l = [] ↔ l = [] := by
  cases l with
  | nil => simp [sortByVotesDesc]
  | cons x xs =>
    simp only [sortByVotesDesc]
    constructor
    · intro h
      exact absurd h (insertByVotes_ne_nil x (sortByVotesDesc xs))
    · intro h
      cases h

theorem mem_insertByVotes {x o : PollOptionUI} : ∀ {l : List PollOptionUI},
    x ∈ insertByVotes o l ↔ x = o ∨ x ∈ l := by
  intro l
  induction l with
  | nil => simp [insertByVotes]
  | cons a as ih =>
    unfold insertByVotes
    split
    · simp [List.mem_cons]
    · simp only [List.mem_cons, ih]
      tauto

theorem mem_sortByVotesDesc {x : PollOptionUI} : ∀ {l : List PollOptionUI},
    x ∈ sortByVotesDesc l ↔ x ∈ l := by
  intro l
  induction l with
  | nil => simp [sortByVotesDesc]
  | cons a as ih =>
    simp only [sortByVotesDesc, mem_insertByVotes, List.mem_cons, ih]

theorem sortByVotesDesc_head_max : ∀ (l : List PollOptionUI) (x : PollOptionUI)
    (r : List PollOptionUI), sortByVotesDesc l = x :: r → ∀ a ∈ l, a.votes ≤ x.votes := by
  intro l
  induction l with
  | nil => intro x r h; simp [sortByVotesDesc] at h
  | cons b bs ih =>
    intro x r h a ha
    simp only [sortByVotesDesc] at h
    cases hs : sortByVotesDesc bs with
    | nil =>
      rw [hs] at h
      have hbs : bs = [] := (sortByVotesDesc_nil_iff bs).mp hs
      subst hbs
      unfold insertByVotes at h
      injection h with h1 h2
      subst h1
      rcases List.mem_cons.mp ha with rfl | ha2
      · exact Nat.le_refl _
      · cases ha2
    | cons y r2 =>
      rw [hs] at h
      have hy : ∀ a ∈ bs, a.votes ≤ y.votes := ih y r2 hs
      unfold insertByVotes at h
      by_cases hc : y.votes ≤ b.votes
      · rw [if_pos hc] at h
        injection h with h1 h2
        subst h1
        rcases List.mem_cons.mp ha with rfl | ha2
        · exact Nat.le_refl _
        · exact le_trans (hy a ha2) hc
      · rw [if_neg hc] at h
        injection h with h1 h2
        subst h1
        rcases List.mem_cons.mp ha with rfl | ha2
        · omega
        · exact hy a ha2

/-- Counterexample to claim C9 as stated: with two options tied at 1 vote each
(total 2), the results card still decorates the first-listed option with the
"Leading" badge, although its count is not strictly highest. -/
theorem C9_counterexample :
    leadingOption ⟨[⟨1, "a", 1⟩, ⟨2, "b", 1⟩], 2⟩ = some ⟨1, "a", 1⟩ ∧
    ⟨2, "b", 1⟩ ∈ (⟨[⟨1, "a", 1⟩, ⟨2, "b", 1⟩], 2⟩ : PollUI).options ∧
    ¬ (⟨2, "b", 1⟩ : PollOptionUI).votes < (⟨1, "a", 1⟩ : PollOptionUI).votes := by
  decide

/-- Claim C9 (amended): percentages are 0 for every option when the total is
0, and no leader is reported then; when a "Leading" badge is shown it goes to
the head of the stable votes-descending sort — an option of the poll with a
positive count that is maximal (greatest-or-equal, not strictly greatest: on a
tie the earliest-listed tied option still gets the badge). -/
theorem C9_percentage_and_leading (poll : PollUI) (x : PollOptionUI) :
    (poll.totalVotes = 0 →
      (∀ o, getVotePercentage poll o = 0) ∧ leadingOption poll = none) ∧
    (leadingOption poll = some x →
      x ∈ poll.options ∧ 0 < x.votes ∧ 0 < poll.totalVotes ∧
        ∀ o ∈ poll.options, o.votes ≤ x.votes) := by
  constructor
  · intro h0
    constructor
    · intro o
      unfold getVotePercentage
      simp [h0]
    · unfold leadingOption
      cases hs : sortByVotesDesc poll.options with
      | nil => rfl
      | cons y r => simp [h0]
  · intro hx
    unfold leadingOption at hx
    cases hs : sortByVotesDesc poll.options with
    | nil => rw [hs] at hx; cases hx
    | cons y r =>
      rw [hs] at hx
      change (if 0 < y.votes ∧ 0 < poll.totalVotes then some y else none) = some x at hx
      by_cases hc : 0 < y.votes ∧ 0 < poll.totalVotes
      · rw [if_pos hc] at hx
        injection hx with hyx
        subst hyx
        refine ⟨?_, hc.1, hc.2, sortByVotesDesc_head_max poll.options y r hs⟩
        have hmem : y ∈ sortByVotesDesc poll.options := by
          rw [hs]; exact List.mem_cons_self y r
        exact mem_sortByVotesDesc.mp hmem
      · rw [if_neg hc] at hx
        cases hx

/-- Witness for C9: the zero-total case on a concrete poll, and the badge case
on a concrete poll whose option 2 leads with 2 of 3 votes. -/
theorem C9_percentage_and_leading_witness :
    ((∀ o, getVotePercentage ⟨[⟨1, "a", 0⟩, ⟨2, "b", 0⟩], 0⟩ o = 0) ∧
      leadingOption ⟨[⟨1, "a", 0⟩, ⟨2, "b", 0⟩], 0⟩ = none) ∧
    (⟨2, "b", 2⟩ ∈ (⟨[⟨1, "a", 1⟩, ⟨2, "b", 2⟩], 3⟩ : PollUI).options ∧
      0 < (⟨2, "b", 2⟩ : PollOptionUI).votes ∧
      0 < (⟨[⟨1, "a", 1⟩, ⟨2, "b", 2⟩], 3⟩ : PollUI).totalVotes ∧
      ∀ o ∈ (⟨[⟨1, "a", 1⟩, ⟨2, "b", 2⟩], 3⟩ : PollUI).options,
        o.votes ≤ (⟨2, "b", 2⟩ : PollOptionUI).votes) :=
  ⟨(C9_percentage_and_leading ⟨[⟨1, "a", 0⟩, ⟨2, "b", 0⟩], 0⟩ ⟨1, "a", 0⟩).1 rfl,
   (C9_percentage_and_leading ⟨[⟨1, "a", 1⟩, ⟨2, "b", 2⟩], 3⟩ ⟨2, "b", 2⟩).2 (by decide)⟩

end AlxPolly
